import Mathlib

/-!
Verification of the SSH client runtime of the jaterm repository
(src/src-tauri/src/commands/ssh.rs) against its natural-language
specification.

The Rust commands are shallowly embedded as pure Lean functions.  Calls into
the external ssh2 / filesystem / process layer are modelled by environment
records that supply the result of each primitive call in program order; the
control flow, the mutation of the session's blocking mode, the lines appended
to the known-hosts store, the emitted events and the lock acquisitions are
translated statement by statement from the source.  Each operation returns,
besides its `Result` value, the trace of session-lock / socket / mode events
it performed, so that the locking and mode-restoration disciplines become
decidable predicates on traces.
-/

namespace JaTerm

/-- Trace events of one SSH command against a session: acquisition and release
of the session's operation lock, flips of the session's blocking mode
(`sess.set_blocking`), socket-level ssh2 operations, and upload-progress
event emissions (`SSH_UPLOAD_PROGRESS`). -/
inductive SEv where
  | acquireSession : SEv
  | releaseSession : SEv
  | setBlocking : Bool → SEv
  | socketOp : String → SEv
  | progress : String → Nat → Nat → SEv
  deriving DecidableEq, Repr

/-- Auxiliary fold for the lock discipline: `h` is whether the session lock is
currently held; a `socketOp` performed while `h = false` makes the whole
check false. -/
def underLockAux : Bool → List SEv → Bool
  | _, [] => true
  | _, SEv.acquireSession :: tr => underLockAux true tr
  | _, SEv.releaseSession :: tr => underLockAux false tr
  | h, SEv.socketOp _ :: tr => h && underLockAux h tr
  | h, SEv.setBlocking _ :: tr => underLockAux h tr
  | h, SEv.progress _ _ _ :: tr => underLockAux h tr

/-- A trace performs all its socket-level operations while holding the
session lock (starting from the lock not held). -/
def socketOpsUnderLock (tr : List SEv) : Bool :=
  underLockAux false tr

/-- A trace segment that neither acquires nor releases the session lock
(the shape of all loop-body traces below). -/
def lockNeutral : List SEv → Bool
  | [] => true
  | SEv.acquireSession :: _ => false
  | SEv.releaseSession :: _ => false
  | _ :: tr => lockNeutral tr

/-- Lock state after executing a trace, starting from `h`. -/
def lockStateAfter : Bool → List SEv → Bool
  | h, [] => h
  | _, SEv.acquireSession :: tr => lockStateAfter true tr
  | _, SEv.releaseSession :: tr => lockStateAfter false tr
  | h, SEv.socketOp _ :: tr => lockStateAfter h tr
  | h, SEv.setBlocking _ :: tr => lockStateAfter h tr
  | h, SEv.progress _ _ _ :: tr => lockStateAfter h tr

/-- Blocking mode of the session after a trace, starting from mode `b`
(sessions are left in non-blocking mode, `false`, between operations). -/
def blockingAfter : Bool → List SEv → Bool
  | b, [] => b
  | _, SEv.setBlocking b :: tr => blockingAfter b tr
  | b, _ :: tr => blockingAfter b tr

/-- One upload-progress event payload: remote path, cumulative bytes written,
total bytes. -/
structure ProgressEv where
  path : String
  written : Nat
  total : Nat
  deriving DecidableEq, Repr

/-- The upload-progress events contained in a trace, in order. -/
def progressEvents : List SEv → List ProgressEv
  | [] => []
  | SEv.progress p w t :: tr => ⟨p, w, t⟩ :: progressEvents tr
  | _ :: tr => progressEvents tr

/-- Result and event trace of one embedded operation. -/
structure OpRun (α : Type) where
  result : Except String α
  trace : List SEv
  deriving Repr

/-! ### Base64 (model of the base64 crate's STANDARD engine, RFC 4648) -/

/-- Alphabet of the standard base64 encoding. -/
def b64Alphabet : List Char :=
  "ABCDEFGHIJKLMNOPQRSTUVWXYZabcdefghijklmnopqrstuvwxyz0123456789+/".toList

/-- Character for a 6-bit group. -/
def b64Char (n : Nat) : Char :=
  b64Alphabet.getD n 'A'

/-- Standard base64 encoding with `=` padding, of a byte list
(model of `base64::engine::general_purpose::STANDARD.encode`). -/
def base64EncodeList : List Nat → List Char
  | [] => []
  | [a] =>
    [b64Char (a / 4), b64Char (a % 4 * 16), '=', '=']
  | [a, b] =>
    [b64Char (a / 4), b64Char (a % 4 * 16 + b / 16), b64Char (b % 16 * 4), '=']
  | a :: b :: c :: rest =>
    b64Char (a / 4) :: b64Char (a % 4 * 16 + b / 16) ::
      b64Char (b % 16 * 4 + c / 64) :: b64Char (c % 64) :: base64EncodeList rest

/-- String form of the standard base64 encoding of a byte list. -/
def base64Encode (bytes : List Nat) : String :=
  String.mk (base64EncodeList bytes)

/-! ### SHA-256 (model of the sha2 crate), on `Nat` with explicit mod 2^32 -/

/-- Truncation to a 32-bit word. -/
def w32 (n : Nat) : Nat := n % 4294967296

/-- 32-bit modular addition. -/
def wadd (a b : Nat) : Nat := (a + b) % 4294967296

/-- Right rotation of a 32-bit word by `n` bits. -/
def rotr (n x : Nat) : Nat := w32 (x >>> n ||| x <<< (32 - n))

/-- Bitwise complement of a 32-bit word. -/
def wnot (x : Nat) : Nat := x ^^^ 4294967295

/-- SHA-256 Ch function. -/
def shaCh (e f g : Nat) : Nat := (e &&& f) ^^^ (wnot e &&& g)

/-- SHA-256 Maj function. -/
def shaMaj (a b c : Nat) : Nat := (a &&& b) ^^^ (a &&& c) ^^^ (b &&& c)

/-- SHA-256 big sigma-0. -/
def bigS0 (x : Nat) : Nat := rotr 2 x ^^^ rotr 13 x ^^^ rotr 22 x

/-- SHA-256 big sigma-1. -/
def bigS1 (x : Nat) : Nat := rotr 6 x ^^^ rotr 11 x ^^^ rotr 25 x

/-- SHA-256 small sigma-0. -/
def smallS0 (x : Nat) : Nat := rotr 7 x ^^^ rotr 18 x ^^^ (x >>> 3)

/-- SHA-256 small sigma-1. -/
def smallS1 (x : Nat) : Nat := rotr 17 x ^^^ rotr 19 x ^^^ (x >>> 10)

/-- SHA-256 round constants. -/
def shaK : List Nat :=
  [1116352408, 1899447441, 3049323471, 3921009573, 961987163,
   1508970993, 2453635748, 2870763221, 3624381080, 310598401,
   607225278, 1426881987, 1925078388, 2162078206, 2614888103,
   3248222580, 3835390401, 4022224774, 264347078, 604807628,
   770255983, 1249150122, 1555081692, 1996064986, 2554220882,
   2821834349, 2952996808, 3210313671, 3336571891, 3584528711,
   113926993, 338241895, 666307205, 773529912, 1294757372,
   1396182291, 1695183700, 1986661051, 2177026350, 2456956037,
   2730485921, 2820302411, 3259730800, 3345764771, 3516065817,
   3600352804, 4094571909, 275423344, 430227734, 506948616,
   659060556, 883997877, 958139571, 1322822218, 1537002063,
   1747873779, 1955562222, 2024104815, 2227730452, 2361852424,
   2428436474, 2756734187, 3204031479, 3329325298]

/-- SHA-256 initial hash state. -/
def shaH0 : List Nat :=
  [1779033703, 3144134277, 1013904242, 2773480762, 1359893119,
   2600822924, 528734635, 1541459225]

/-- Big-endian combination of four bytes into a 32-bit word. -/
def word4 (a b c d : Nat) : Nat := ((a * 256 + b) * 256 + c) * 256 + d

/-- Big-endian 4-byte words of a byte list. -/
def bytesToWords : List Nat → List Nat
  | a :: b :: c :: d :: rest => word4 a b c d :: bytesToWords rest
  | _ => []

/-- Big-endian bytes of a 32-bit word. -/
def wordToBytes (w : Nat) : List Nat :=
  [w / 16777216 % 256, w / 65536 % 256, w / 256 % 256, w % 256]

/-- SHA-256 padding: append 0x80, zeros to 56 mod 64, then the bit length as
eight big-endian bytes. -/
def shaPad (msg : List Nat) : List Nat :=
  let len := msg.length
  let zeros := (64 + 55 - len % 64) % 64
  let bitLen := len * 8
  msg ++ [128] ++ List.replicate zeros 0 ++
    [bitLen / 72057594037927936 % 256, bitLen / 281474976710656 % 256,
     bitLen / 1099511627776 % 256, bitLen / 4294967296 % 256,
     bitLen / 16777216 % 256, bitLen / 65536 % 256,
     bitLen / 256 % 256, bitLen % 256]

/-- Split a byte list into 64-byte chunks; `fuel` bounds the recursion and is
instantiated with the list length. -/
def chunks64 : Nat → List Nat → List (List Nat)
  | 0, _ => []
  | _, [] => []
  | fuel + 1, l => l.take 64 :: chunks64 fuel (l.drop 64)

/-- Message-schedule extension from 16 to 64 words. -/
def shaSchedule (ws : Array Nat) : Array Nat :=
  (List.range 48).foldl
    (fun arr i =>
      arr.push
        (wadd (wadd (smallS1 (arr.getD (i + 14) 0)) (arr.getD (i + 9) 0))
          (wadd (smallS0 (arr.getD (i + 1) 0)) (arr.getD i 0))))
    ws

/-- SHA-256 working state for one compression. -/
structure Sha8 where
  a : Nat
  b : Nat
  c : Nat
  d : Nat
  e : Nat
  f : Nat
  g : Nat
  hh : Nat

/-- One SHA-256 round. -/
def shaRound (st : Sha8) (kw : Nat × Nat) : Sha8 :=
  let t1 := wadd st.hh (wadd (bigS1 st.e) (wadd (shaCh st.e st.f st.g) (wadd kw.1 kw.2)))
  let t2 := wadd (bigS0 st.a) (shaMaj st.a st.b st.c)
  ⟨wadd t1 t2, st.a, st.b, st.c, wadd st.d t1, st.e, st.f, st.g⟩

/-- Compression of one 64-byte block into the running hash. -/
def shaCompress (h : List Nat) (block : List Nat) : List Nat :=
  let ws := shaSchedule (Array.mk (bytesToWords block))
  let st0 : Sha8 :=
    ⟨h.getD 0 0, h.getD 1 0, h.getD 2 0, h.getD 3 0,
     h.getD 4 0, h.getD 5 0, h.getD 6 0, h.getD 7 0⟩
  let st := (List.zip shaK ws.toList).foldl shaRound st0
  [wadd (h.getD 0 0) st.a, wadd (h.getD 1 0) st.b, wadd (h.getD 2 0) st.c,
   wadd (h.getD 3 0) st.d, wadd (h.getD 4 0) st.e, wadd (h.getD 5 0) st.f,
   wadd (h.getD 6 0) st.g, wadd (h.getD 7 0) st.hh]

/-- SHA-256 digest of a byte list, as 32 bytes. -/
def sha256 (msg : List Nat) : List Nat :=
  let padded := shaPad msg
  let final := (chunks64 padded.length padded).foldl shaCompress shaH0
  final.flatMap wordToBytes

/-- Strip trailing `=` characters (model of `trim_end_matches('=')`). -/
def trimEqEnd (s : String) : String :=
  String.mk ((s.toList.reverse.dropWhile (fun c => c = '=')).reverse)

/-- SHA-256 fingerprint string of a host key as computed by `ssh_connect`:
base64 of the SHA-256 digest, with trailing padding stripped. -/
def fingerprintSha256 (key : List Nat) : String :=
  trimEqEnd (base64Encode (sha256 key))

/-! ### Host normalization (ssh.rs lines 51-60, 95-100, 174-179) -/

/-- Split a character list on a separator character (character-level model
of `str::split(sep)`; the leading/trailing empty groups of the Rust
iterator are produced the same way). -/
def splitOnChar (sep : Char) : List Char → List (List Char)
  | [] => [[]]
  | c :: cs =>
    let r := splitOnChar sep cs
    if c = sep then [] :: r
    else
      match r with
      | [] => [[c]]
      | g :: gs => (c :: g) :: gs

/-- Decimal value of an IPv4 octet as accepted by `std::net::Ipv4Addr`
parsing: one to three digits, no leading zero, value at most 255. -/
def ipv4Octet (s : List Char) : Option Nat :=
  if s.length = 0 ∨ 3 < s.length then none
  else if ¬ s.all Char.isDigit then none
  else if 1 < s.length ∧ s.headD '0' = '0' then none
  else
    let v := s.foldl (fun n c => n * 10 + (c.toNat - 48)) 0
    if v ≤ 255 then some v else none

/-- Models `host.parse::<std::net::Ipv4Addr>().is_ok()`. -/
def isIpv4 (host : String) : Bool :=
  let parts := splitOnChar '.' host.toList
  parts.length = 4 && parts.all (fun p => (ipv4Octet p).isSome)

/-- Approximate model of `std::net::Ipv6Addr` parsing after stripping
brackets: the address is non-empty, contains a colon, and consists of
hexadecimal digits, colons and dots only (the claims never depend on exact
IPv6 syntax). -/
def isIpv6 (host : String) : Bool :=
  let clean := (host.toList.dropWhile (fun c => c = '[')).reverse
    |>.dropWhile (fun c => c = ']') |>.reverse
  clean.length ≠ 0 && clean.contains ':' &&
    clean.all (fun c => c.isDigit || (c.toLower ≥ 'a' && c.toLower ≤ 'f') || c = ':' || c = '.')

/-- Model of `is_ip_address` (ssh.rs lines 51-60). -/
def isIpAddress (host : String) : Bool :=
  isIpv4 host || isIpv6 host

/-- Hostname normalization used by `ssh_connect` and
`establish_ssh_connection`: DNS names are ASCII-lowercased
(`to_ascii_lowercase`, applied character-wise), literal IP addresses are
left untouched. -/
def normalizeHost (host : String) : String :=
  if isIpAddress host then host else String.mk (host.toList.map Char.toLower)

/-! ### Profiles and the connect command (ssh.rs lines 12-49, 168-481) -/

/-- Model of `SshAuth` (ssh.rs lines 12-22). -/
structure SshAuth where
  password : Option String := none
  keyPath : Option String := none
  passphrase : Option String := none
  agent : Bool := false
  deriving DecidableEq, Repr

/-- Model of `SshProfile` (ssh.rs lines 24-45); the dead `timeout_ms` field
and the x11/agent-forwarding flags, which have no effect in the source, are
omitted. -/
structure SshProfile where
  host : String
  port : Nat := 22
  user : String
  auth : Option SshAuth := none
  trustHost : Option Bool := none
  keepaliveInterval : Option Nat := none
  compression : Option Bool := none
  deriving DecidableEq, Repr

/-- Model of `ssh2::HostKeyType`. -/
inductive HostKeyType where
  | rsa | dss | ecdsa256 | ecdsa384 | ecdsa521 | ed25519 | unknown
  deriving DecidableEq, Repr

/-- Key-type name used when appending a trusted key to known_hosts
(ssh.rs lines 225-233 and 293-301; the catch-all arm yields "ssh-ed25519"). -/
def keyTypeNameTrusted : HostKeyType → String
  | HostKeyType.rsa => "ssh-rsa"
  | HostKeyType.dss => "ssh-dss"
  | HostKeyType.ecdsa256 => "ecdsa-sha2-nistp256"
  | HostKeyType.ecdsa384 => "ecdsa-sha2-nistp384"
  | HostKeyType.ecdsa521 => "ecdsa-sha2-nistp521"
  | HostKeyType.ed25519 => "ssh-ed25519"
  | HostKeyType.unknown => "ssh-ed25519"

/-- Key-type name used inside the confirmation prompt payload
(ssh.rs lines 264-272 and 336-344; the catch-all arm yields "unknown"). -/
def keyTypeNamePrompt : HostKeyType → String
  | HostKeyType.rsa => "ssh-rsa"
  | HostKeyType.dss => "ssh-dss"
  | HostKeyType.ecdsa256 => "ecdsa-sha2-nistp256"
  | HostKeyType.ecdsa384 => "ecdsa-sha2-nistp384"
  | HostKeyType.ecdsa521 => "ecdsa-sha2-nistp521"
  | HostKeyType.ed25519 => "ssh-ed25519"
  | HostKeyType.unknown => "unknown"

/-- Model of `ssh2::CheckResult` from the known-hosts lookup. -/
inductive CheckResult where
  | isMatch | notFound | mismatch | failure
  deriving DecidableEq, Repr

/-- Environment of one `ssh_connect` attempt: the result of each external
primitive in program order.  `khAvailable` is whether `sess.known_hosts()`
returns `Ok`, `home` is the `HOME` environment variable, `hostKey` is
`sess.host_key()` (raw key bytes and type), `check` the known-hosts lookup
result, `khOpenOk` whether opening `~/.ssh/known_hosts` for append succeeds,
and the auth fields give the outcome of the attempted authentication calls. -/
structure ConnectEnv where
  tcpOk : Bool := true
  tcpErr : String := ""
  sessionNewOk : Bool := true
  sessionErr : String := ""
  cloneOk : Bool := true
  cloneErr : String := ""
  handshakeOk : Bool := true
  handshakeErr : String := ""
  khAvailable : Bool := true
  home : Option String := some "/home/user"
  hostKey : Option (List Nat × HostKeyType) := none
  check : CheckResult := CheckResult.isMatch
  khOpenOk : Bool := true
  agentConnectOk : Bool := true
  agentErr : String := ""
  agentAuthOk : Bool := true
  pwAuthOk : Bool := true
  keyAuthOk : Bool := true
  authErr : String := ""
  authenticated : Bool := true
  setNonblockingOk : Bool := true
  nonblockingErr : String := ""
  sessionId : String := "ssh_00000000"
  deriving DecidableEq, Repr

/-- Structured "confirmation needed" payload returned when trust cannot be
established silently (the `KNOWN_HOSTS_PROMPT` JSON of ssh.rs
lines 273-280 and 345-352). -/
structure PromptPayload where
  host : String
  port : Nat
  keyType : String
  fingerprintSHA256 : String
  deriving DecidableEq, Repr

/-- Outcome of a connect attempt: a fresh session identifier, an error
string, or the structured trust-confirmation payload. -/
inductive ConnectOutcome where
  | ok : String → ConnectOutcome
  | err : String → ConnectOutcome
  | prompt : PromptPayload → ConnectOutcome
  deriving DecidableEq, Repr

/-- Observable result of one `ssh_connect` run: the outcome, the lines
appended to the known-hosts store, whether the known-hosts store was
consulted at all, and whether control reached the authentication section. -/
structure ConnectRun where
  outcome : ConnectOutcome
  khWrites : List String
  consultedKnownHosts : Bool
  reachedAuth : Bool
  deriving DecidableEq, Repr

/-- Authentication section shared shape of `ssh_connect`
(ssh.rs lines 359-394): agent, then password, then key file; a present
`auth` object with no method yields "no auth method provided", a missing
`auth` yields "missing auth"; afterwards `sess.authenticated()` is
checked. -/
def connectAuth (auth : Option SshAuth) (env : ConnectEnv) : Except String Unit :=
  match auth with
  | none => Except.error "missing auth"
  | some a =>
    let picked : Except String Unit :=
      if a.agent then
        if ¬ env.agentConnectOk then Except.error env.agentErr
        else if env.agentAuthOk then Except.ok ()
        else Except.error "agent auth failed"
      else
        match a.password with
        | some _ =>
          if env.pwAuthOk then Except.ok ()
          else Except.error ("auth pw: " ++ env.authErr)
        | none =>
          match a.keyPath with
          | some _ =>
            if env.keyAuthOk then Except.ok ()
            else Except.error ("auth key: " ++ env.authErr)
          | none => Except.error "no auth method provided"
    match picked with
    | Except.error e => Except.error e
    | Except.ok () =>
      if env.authenticated then Except.ok ()
      else Except.error "authentication failed"

/-- Known-hosts line appended when a key is trusted
(ssh.rs line 240: `format!("{} {} {}\n", host_normalized, kt, b64)`). -/
def khLine (hostNorm : String) (kt : HostKeyType) (key : List Nat) : String :=
  hostNorm ++ " " ++ keyTypeNameTrusted kt ++ " " ++ base64Encode key ++ "\n"

/-- Result of the trust-verification phase: either an early return
(mismatch error or confirmation prompt) or permission to proceed, together
with the lines appended to the store and whether the store was consulted. -/
structure TrustPhase where
  early : Option ConnectOutcome
  khWrites : List String
  consulted : Bool
  deriving DecidableEq, Repr

/-- Trust-verification phase of `ssh_connect` (ssh.rs lines 208-358).  The
check runs only when `sess.known_hosts()` succeeds, `HOME` is set, and the
server offered a host key; otherwise the whole verification is skipped. -/
def trustVerify (hostNorm : String) (port : Nat) (trustHost : Bool)
    (env : ConnectEnv) : TrustPhase :=
  if ¬ env.khAvailable then ⟨none, [], false⟩
  else
    match env.home with
    | none => ⟨none, [], false⟩
    | some _ =>
      match env.hostKey with
      | none => ⟨none, [], false⟩
      | some (key, kt) =>
        let hostport := hostNorm ++ ":" ++ toString port
        match env.check with
        | CheckResult.isMatch => ⟨none, [], true⟩
        | CheckResult.notFound =>
          if trustHost then
            ⟨none, if env.khOpenOk then [khLine hostNorm kt key] else [], true⟩
          else
            ⟨some (ConnectOutcome.prompt
              ⟨hostNorm, port, keyTypeNamePrompt kt, fingerprintSha256 key⟩),
              [], true⟩
        | CheckResult.mismatch =>
          ⟨some (ConnectOutcome.err ("known_hosts mismatch for " ++ hostport)),
            [], true⟩
        | CheckResult.failure =>
          if trustHost then
            ⟨none, if env.khOpenOk then [khLine hostNorm kt key] else [], true⟩
          else
            ⟨some (ConnectOutcome.prompt
              ⟨hostNorm, port, keyTypeNamePrompt kt, fingerprintSha256 key⟩),
              [], true⟩

/-- Model of `ssh_connect` (ssh.rs lines 168-481): TCP connect, session
creation, handshake, known-hosts verification, authentication, session
configuration, and registration of the new session under a fresh
identifier.  The watchdog thread and the event emission it performs are
outside the session's observable state and elided. -/
def sshConnect (profile : SshProfile) (env : ConnectEnv) : ConnectRun :=
  let hostNorm := normalizeHost profile.host
  if ¬ env.tcpOk then
    ⟨ConnectOutcome.err ("tcp connect: " ++ env.tcpErr), [], false, false⟩
  else if ¬ env.sessionNewOk then
    ⟨ConnectOutcome.err ("session: " ++ env.sessionErr), [], false, false⟩
  else if ¬ env.cloneOk then
    ⟨ConnectOutcome.err env.cloneErr, [], false, false⟩
  else if ¬ env.handshakeOk then
    ⟨ConnectOutcome.err ("handshake: " ++ env.handshakeErr), [], false, false⟩
  else
    let tp := trustVerify hostNorm profile.port (profile.trustHost.getD false) env
    match tp.early with
    | some outcome => ⟨outcome, tp.khWrites, tp.consulted, false⟩
    | none =>
      match connectAuth profile.auth env with
      | Except.error e =>
        ⟨ConnectOutcome.err e, tp.khWrites, tp.consulted, true⟩
      | Except.ok () =>
        if ¬ env.setNonblockingOk then
          ⟨ConnectOutcome.err ("set_nonblocking: " ++ env.nonblockingErr),
            tp.khWrites, tp.consulted, true⟩
        else
          ⟨ConnectOutcome.ok env.sessionId, tp.khWrites, tp.consulted, true⟩

/-! ### establish_ssh_connection (ssh.rs lines 87-166), used for splits -/

/-- Observable result of `establish_ssh_connection`: it performs no
known-hosts verification at all (the `_trust_host` parameter is unused in
the source), so `consultedKnownHosts` is false and `khWrites` empty by
construction, faithfully to the absence of any trust code in the source. -/
structure EstablishRun where
  result : Except String Unit
  khWrites : List String
  consultedKnownHosts : Bool
  deriving Repr

/-- Authentication section of `establish_ssh_connection` (ssh.rs
lines 123-157).  Unlike `ssh_connect`, an `auth` object with none of the
three methods set falls through silently to the `sess.authenticated()`
check; a missing `auth` yields "no auth method provided". -/
def establishAuth (auth : Option SshAuth) (env : ConnectEnv) : Except String Unit :=
  match auth with
  | none => Except.error "no auth method provided"
  | some a =>
    let picked : Except String Unit :=
      if a.agent then
        if ¬ env.agentConnectOk then Except.error env.agentErr
        else if env.agentAuthOk then Except.ok ()
        else Except.error "agent auth failed"
      else
        match a.password with
        | some _ =>
          if env.pwAuthOk then Except.ok ()
          else Except.error ("auth pw: " ++ env.authErr)
        | none =>
          match a.keyPath with
          | some _ =>
            if env.keyAuthOk then Except.ok ()
            else Except.error ("auth key: " ++ env.authErr)
          | none => Except.ok ()
    match picked with
    | Except.error e => Except.error e
    | Except.ok () =>
      if env.authenticated then Except.ok ()
      else Except.error "authentication failed"

/-- Model of `establish_ssh_connection` (ssh.rs lines 87-166): TCP connect,
session creation, handshake, authentication, configuration.  There is no
known-hosts code between the handshake and the authentication (the comment
at lines 120-122 marks its deliberate absence for split connections). -/
def establishSshConnection (host : String) (_port : Nat) (_user : String)
    (auth : Option SshAuth) (_trustHost : Bool) (env : ConnectEnv) : EstablishRun :=
  let _hostNorm := normalizeHost host
  if ¬ env.tcpOk then
    ⟨Except.error ("tcp connect: " ++ env.tcpErr), [], false⟩
  else if ¬ env.sessionNewOk then
    ⟨Except.error ("session: " ++ env.sessionErr), [], false⟩
  else if ¬ env.cloneOk then
    ⟨Except.error env.cloneErr, [], false⟩
  else if ¬ env.handshakeOk then
    ⟨Except.error ("handshake: " ++ env.handshakeErr), [], false⟩
  else
    match establishAuth auth env with
    | Except.error e => ⟨Except.error e, [], false⟩
    | Except.ok () =>
      if ¬ env.setNonblockingOk then
        ⟨Except.error ("set_nonblocking: " ++ env.nonblockingErr), [], false⟩
      else
        ⟨Except.ok (), [], false⟩

/-- The split connection opened by `ssh_open_shell` (ssh.rs line 1416):
a fresh `establish_ssh_connection` with the owning session's parameters and
`trust_host = true`. -/
def openShellSplitConnect (host : String) (port : Nat) (user : String)
    (auth : Option SshAuth) (env : ConnectEnv) : EstablishRun :=
  establishSshConnection host port user auth true env

/-! ### ssh_home_dir (ssh.rs lines 483-508)

The function holds only the registry lock; it never acquires the session's
operation lock, so its trace contains socket operations with no
`acquireSession`. -/

/-- Environment of one `ssh_home_dir` call. -/
structure HomeDirEnv where
  sessionFound : Bool := true
  sftpOk : Bool := true
  sftpErr : String := ""
  realpathOk : Bool := true
  realpathErr : String := ""
  realpathVal : String := "/home/user"
  realpathUtf8 : Bool := true
  deriving Repr

/-- Model of `ssh_home_dir`. -/
def sshHomeDir (env : HomeDirEnv) : OpRun String :=
  if ¬ env.sessionFound then ⟨Except.error "ssh session not found", []⟩
  else if ¬ env.sftpOk then
    ⟨Except.error env.sftpErr,
      [SEv.setBlocking true, SEv.socketOp "sftp", SEv.setBlocking false]⟩
  else if ¬ env.realpathOk then
    ⟨Except.error env.realpathErr,
      [SEv.setBlocking true, SEv.socketOp "sftp", SEv.socketOp "realpath",
       SEv.setBlocking false]⟩
  else
    ⟨if env.realpathUtf8 then Except.ok env.realpathVal
      else Except.error "non-utf8 path",
      [SEv.setBlocking true, SEv.socketOp "sftp", SEv.socketOp "realpath",
       SEv.setBlocking false]⟩

/-! ### ssh_sftp_list (ssh.rs lines 510-583) -/

/-- Model of the `SftpEntry` result rows. -/
structure SftpEntry where
  name : String
  path : String
  isDir : Bool
  deriving DecidableEq, Repr

/-- Comparator of the final sort (ssh.rs lines 577-581): directories first,
then names case-insensitively. -/
def sftpEntryLe (a b : SftpEntry) : Bool :=
  (a.isDir && !b.isDir) || (a.isDir = b.isDir && a.name.toLower ≤ b.name.toLower)

/-- Stable insertion into a sorted list (model of the stable `sort_by`). -/
def insertByLe (x : SftpEntry) : List SftpEntry → List SftpEntry
  | [] => [x]
  | y :: ys => if sftpEntryLe x y then x :: y :: ys else y :: insertByLe x ys

/-- Stable sort by `sftpEntryLe` (model of `Vec::sort_by`). -/
def sortEntries (l : List SftpEntry) : List SftpEntry :=
  l.foldr insertByLe []

/-- Environment of one `ssh_sftp_list` call; `entries` is the raw `readdir`
listing (name, full path, is_dir). -/
structure SftpListEnv where
  sessionFound : Bool := true
  sftpOk : Bool := true
  sftpErr : String := ""
  readdirOk : Bool := true
  readdirErr : String := ""
  entries : List SftpEntry := []
  deriving Repr

/-- Model of `ssh_sftp_list`: SFTP handle and readdir under the session lock
in blocking mode, mode restored on both paths, then the "." self-entry is
filtered out and the rows are sorted directories-first. -/
def sshSftpList (env : SftpListEnv) : OpRun (List SftpEntry) :=
  if ¬ env.sessionFound then ⟨Except.error "ssh session not found", []⟩
  else if ¬ env.sftpOk then
    ⟨Except.error env.sftpErr,
      [SEv.acquireSession, SEv.setBlocking true, SEv.socketOp "sftp",
       SEv.setBlocking false, SEv.releaseSession]⟩
  else if ¬ env.readdirOk then
    ⟨Except.error env.readdirErr,
      [SEv.acquireSession, SEv.setBlocking true, SEv.socketOp "sftp",
       SEv.socketOp "readdir", SEv.setBlocking false, SEv.releaseSession]⟩
  else
    ⟨Except.ok (sortEntries (env.entries.filter (fun e => e.name ≠ "."))),
      [SEv.acquireSession, SEv.setBlocking true, SEv.socketOp "sftp",
       SEv.socketOp "readdir", SEv.setBlocking false, SEv.releaseSession]⟩

/-! ### ssh_sftp_download (ssh.rs lines 585-650)

The session lock guard lives only inside the block that creates the SFTP
handle (lines 598-621); the transfer loop runs after that block, without
the session lock, and the mode is restored only at line 645 on the success
path: the early error returns at lines 627, 628, 635 and 637 leave the
session in blocking mode. -/

/-- One iteration of the download read loop: a successful read of `n` bytes
followed by the local write (which fails with a message when
`writeRes = some msg`), or a read error. -/
inductive DlStep where
  | readOk : Nat → Option String → DlStep
  | readErr : String → DlStep
  deriving Repr

/-- The download transfer loop (ssh.rs lines 631-639); the list end models
the final `Ok(0)` read. -/
def dlLoop : List DlStep → Except String Unit × List SEv
  | [] => (Except.ok (), [SEv.socketOp "read"])
  | DlStep.readOk _ none :: rest =>
    let (r, tr) := dlLoop rest
    (r, SEv.socketOp "read" :: tr)
  | DlStep.readOk _ (some msg) :: _ => (Except.error msg, [SEv.socketOp "read"])
  | DlStep.readErr e :: _ => (Except.error e, [SEv.socketOp "read"])

/-- Environment of one `ssh_sftp_download` call.  `sessionStillThere` is
whether the session is still registered when the non-blocking mode is
restored at the end (lines 643-646 tolerate its absence). -/
structure DownloadEnv where
  sessionFound : Bool := true
  sftpOk : Bool := true
  sftpErr : String := ""
  openOk : Bool := true
  openErr : String := ""
  createLocalOk : Bool := true
  createLocalErr : String := ""
  steps : List DlStep := []
  sessionStillThere : Bool := true
  deriving Repr

/-- Model of `ssh_sftp_download`. -/
def sshSftpDownload (env : DownloadEnv) : OpRun Unit :=
  if ¬ env.sessionFound then ⟨Except.error "ssh session not found", []⟩
  else if ¬ env.sftpOk then
    ⟨Except.error env.sftpErr,
      [SEv.acquireSession, SEv.setBlocking true, SEv.socketOp "sftp",
       SEv.setBlocking false, SEv.releaseSession]⟩
  else
    let prefixTr :=
      [SEv.acquireSession, SEv.setBlocking true, SEv.socketOp "sftp",
       SEv.releaseSession]
    if ¬ env.openOk then
      ⟨Except.error env.openErr, prefixTr ++ [SEv.socketOp "open"]⟩
    else if ¬ env.createLocalOk then
      ⟨Except.error env.createLocalErr, prefixTr ++ [SEv.socketOp "open"]⟩
    else
      let (r, loopTr) := dlLoop env.steps
      match r with
      | Except.error e =>
        ⟨Except.error e, prefixTr ++ SEv.socketOp "open" :: loopTr⟩
      | Except.ok () =>
        ⟨Except.ok (),
          prefixTr ++ SEv.socketOp "open" :: loopTr ++
            (if env.sessionStillThere then [SEv.setBlocking false] else [])⟩

/-! ### ssh_sftp_download_dir (ssh.rs lines 652-753)

Like `ssh_sftp_download`, the session lock is released once the SFTP handle
exists; the whole recursive walk runs without it.  The early return at
line 691 (local `create_dir_all` failure) skips the mode restore; the walk
result itself is captured and the mode restored before returning it
(lines 742-752). -/

/-- Remote tree as seen by `download_recursive`: a file with a number of
read chunks, or a directory listing.  The walk is modelled on its success
path (read/write failures inside the walk restore the mode via the captured
result and are not claim-relevant). -/
inductive RTree where
  | file : Nat → RTree
  | dir : List (String × RTree) → RTree
  deriving Repr

mutual

/-- Socket operations of `download_recursive` on one node. -/
def dlTreeEvents : RTree → List SEv
  | RTree.file chunks =>
    SEv.socketOp "open" :: List.replicate chunks (SEv.socketOp "read") ++
      [SEv.socketOp "read"]
  | RTree.dir es => SEv.socketOp "readdir" :: dlDirEvents es

/-- Socket operations of the walk over a directory listing; the "." and
".." entries are skipped (ssh.rs lines 713-715). -/
def dlDirEvents : List (String × RTree) → List SEv
  | [] => []
  | (name, t) :: rest =>
    (if name = "." ∨ name = ".." then [] else dlTreeEvents t) ++ dlDirEvents rest

end

/-- Environment of one `ssh_sftp_download_dir` call. -/
structure DownloadDirEnv where
  sessionFound : Bool := true
  sftpOk : Bool := true
  sftpErr : String := ""
  localRootOk : Bool := true
  localRootErr : String := ""
  tree : List (String × RTree) := []
  sessionStillThere : Bool := true
  deriving Repr

/-- Model of `ssh_sftp_download_dir`. -/
def sshSftpDownloadDir (env : DownloadDirEnv) : OpRun Unit :=
  if ¬ env.sessionFound then ⟨Except.error "ssh session not found", []⟩
  else if ¬ env.sftpOk then
    ⟨Except.error env.sftpErr,
      [SEv.acquireSession, SEv.setBlocking true, SEv.socketOp "sftp",
       SEv.setBlocking false, SEv.releaseSession]⟩
  else
    let prefixTr :=
      [SEv.acquireSession, SEv.setBlocking true, SEv.socketOp "sftp",
       SEv.releaseSession]
    if ¬ env.localRootOk then
      ⟨Except.error env.localRootErr, prefixTr⟩
    else
      ⟨Except.ok (),
        prefixTr ++ SEv.socketOp "readdir" :: dlDirEvents env.tree ++
          (if env.sessionStillThere then [SEv.setBlocking false] else [])⟩

/-! ### ssh_sftp_read (ssh.rs lines 755-813)

The session lock guard spans the whole block that performs the read; every
error path restores non-blocking mode before returning. -/

/-- The read-accumulation loop (ssh.rs lines 792-805); each element is the
result of one `file.read`, the list end models the final `Ok(0)`. -/
def readChunksLoop : List (Except String (List Nat)) →
    Except String (List Nat) × List SEv
  | [] => (Except.ok [], [SEv.socketOp "read"])
  | Except.ok chunk :: rest =>
    let (r, tr) := readChunksLoop rest
    (r.map (fun l => chunk ++ l), SEv.socketOp "read" :: tr)
  | Except.error e :: _ => (Except.error e, [SEv.socketOp "read"])

/-- Environment of one `ssh_sftp_read` call. -/
structure SftpReadEnv where
  sessionFound : Bool := true
  sftpOk : Bool := true
  sftpErr : String := ""
  openOk : Bool := true
  openErr : String := ""
  steps : List (Except String (List Nat)) := []
  deriving Repr

/-- Model of `ssh_sftp_read`: the collected bytes are returned
base64-encoded. -/
def sshSftpRead (env : SftpReadEnv) : OpRun String :=
  if ¬ env.sessionFound then ⟨Except.error "ssh session not found", []⟩
  else if ¬ env.sftpOk then
    ⟨Except.error env.sftpErr,
      [SEv.acquireSession, SEv.setBlocking true, SEv.socketOp "sftp",
       SEv.setBlocking false, SEv.releaseSession]⟩
  else if ¬ env.openOk then
    ⟨Except.error env.openErr,
      [SEv.acquireSession, SEv.setBlocking true, SEv.socketOp "sftp",
       SEv.socketOp "open", SEv.setBlocking false, SEv.releaseSession]⟩
  else
    let (r, loopTr) := readChunksLoop env.steps
    match r with
    | Except.error e =>
      ⟨Except.error e,
        [SEv.acquireSession, SEv.setBlocking true, SEv.socketOp "sftp",
         SEv.socketOp "open"] ++ loopTr ++
          [SEv.setBlocking false, SEv.releaseSession]⟩
    | Except.ok buf =>
      ⟨Except.ok (base64Encode buf),
        [SEv.acquireSession, SEv.setBlocking true, SEv.socketOp "sftp",
         SEv.socketOp "open"] ++ loopTr ++
          [SEv.setBlocking false, SEv.releaseSession]⟩

/-! ### ssh_sftp_mkdirs (ssh.rs lines 815-878) -/

/-- Modelled from the spec: the remote SFTP server's directory state, a
finite map from absolute path strings to "is a directory".  `stat` looks a
path up; `mkdir` fails when the path already exists and records a new
directory otherwise. -/
def Fs : Type := List (String × Bool)

/-- Lookup of a path (model of `sftp.stat`): `some b` when the path exists
(`b` = is a directory), `none` when it does not. -/
def fsStat (fs : Fs) (p : String) : Option Bool :=
  match fs.find? (fun e => e.1 = p) with
  | some e => some e.2
  | none => none

/-- Model of `sftp.mkdir`: fails when the path already exists. -/
def fsMkdir (fs : Fs) (p : String) : Except String Fs :=
  match fsStat fs p with
  | some _ => Except.error "sftp mkdir failed"
  | none => Except.ok ((p, true) :: fs)

/-- Path segments walked by `ssh_sftp_mkdirs` (ssh.rs lines 842-845):
split on `/`, dropping empty segments and `.`. -/
def mkdirsSegments (path : String) : List String :=
  ((splitOnChar '/' path.toList).map String.mk).filter (fun p => p ≠ "" ∧ p ≠ ".")

/-- Initial accumulated path (ssh.rs lines 846-850). -/
def mkdirsInit (path : String) : String :=
  if path.toList.headD ' ' = '/' then "/" else ""

/-- Extension of the accumulated path by one segment
(ssh.rs lines 851-855). -/
def mkdirsStep (cur part : String) : String :=
  (if cur ≠ "/" ∧ cur ≠ "" then cur ++ "/" else cur) ++ part

/-- The segment walk of `ssh_sftp_mkdirs` (ssh.rs lines 851-875): a segment
that already exists as a directory is success; otherwise `mkdir` is tried
and, if it fails, existence is re-checked before giving up. -/
def mkdirsLoop : List String → String → Fs → Except String Unit × Fs × List SEv
  | [], _, fs => (Except.ok (), fs, [])
  | part :: rest, cur, fs =>
    let p := mkdirsStep cur part
    match fsStat fs p with
    | some true =>
      let (r, fs2, tr) := mkdirsLoop rest p fs
      (r, fs2, SEv.socketOp "stat" :: tr)
    | _ =>
      match fsMkdir fs p with
      | Except.ok fs1 =>
        let (r, fs2, tr) := mkdirsLoop rest p fs1
        (r, fs2, SEv.socketOp "stat" :: SEv.socketOp "mkdir" :: tr)
      | Except.error e =>
        match fsStat fs p with
        | some true =>
          let (r, fs2, tr) := mkdirsLoop rest p fs
          (r, fs2,
            SEv.socketOp "stat" :: SEv.socketOp "mkdir" :: SEv.socketOp "stat" :: tr)
        | _ =>
          (Except.error e, fs,
            [SEv.socketOp "stat", SEv.socketOp "mkdir", SEv.socketOp "stat"])

/-- Environment of one `ssh_sftp_mkdirs` call. -/
structure MkdirsEnv where
  sessionFound : Bool := true
  sftpOk : Bool := true
  sftpErr : String := ""
  deriving Repr

/-- Result of one `ssh_sftp_mkdirs` call: outcome, final remote filesystem,
trace. -/
structure MkdirsRun where
  result : Except String Unit
  fs : Fs
  trace : List SEv

/-- Model of `ssh_sftp_mkdirs`: the whole walk runs under the session lock
in blocking mode, and the mode is restored on the error path
(ssh.rs line 872) as well as on success (line 876). -/
def sshSftpMkdirs (env : MkdirsEnv) (path : String) (fs : Fs) : MkdirsRun :=
  if ¬ env.sessionFound then ⟨Except.error "ssh session not found", fs, []⟩
  else if ¬ env.sftpOk then
    ⟨Except.error env.sftpErr, fs,
      [SEv.acquireSession, SEv.setBlocking true, SEv.socketOp "sftp",
       SEv.setBlocking false, SEv.releaseSession]⟩
  else
    let (r, fs2, loopTr) := mkdirsLoop (mkdirsSegments path) (mkdirsInit path) fs
    ⟨r, fs2,
      [SEv.acquireSession, SEv.setBlocking true, SEv.socketOp "sftp"] ++
        loopTr ++ [SEv.setBlocking false, SEv.releaseSession]⟩

/-! ### The chunked upload loop shared by ssh_sftp_write (lines 1003-1016)
and ssh_deploy_helper (lines 940-953): 8192-byte chunks, one progress event
per chunk, a write failure restores non-blocking mode inside the error
closure before propagating. -/

/-- The upload loop; `fuel` bounds the iteration count and is instantiated
with `total`, which suffices since every iteration writes at least one
byte.  `writeRes idx` is the result of the idx-th `write_all`
(`none` = success). -/
def uploadLoopF (path : String) (total : Nat) (writeRes : Nat → Option String) :
    Nat → Nat → Nat → Except String Unit × List SEv
  | 0, _, _ => (Except.ok (), [])
  | fuel + 1, w, idx =>
    if w < total then
      match writeRes idx with
      | some msg =>
        (Except.error ("Write failed: " ++ msg),
          [SEv.socketOp "write", SEv.setBlocking false])
      | none =>
        let e := min (w + 8192) total
        let (r, tr) := uploadLoopF path total writeRes fuel e (idx + 1)
        (r, SEv.socketOp "write" :: SEv.progress path e total :: tr)
    else (Except.ok (), [])

/-- The upload loop as entered by the source: from zero bytes written. -/
def uploadLoop (path : String) (total : Nat) (writeRes : Nat → Option String) :
    Except String Unit × List SEv :=
  uploadLoopF path total writeRes total 0 0

/-! ### ssh_sftp_write (ssh.rs lines 961-1021) -/

/-- Environment of one `ssh_sftp_write` call.  `decodeRes` is the result of
base64-decoding the `data_b64` argument (an external crate call). -/
structure SftpWriteEnv where
  sessionFound : Bool := true
  sftpOk : Bool := true
  sftpErr : String := ""
  decodeRes : Except String (List Nat) := Except.ok []
  createOk : Bool := true
  createErr : String := ""
  writeRes : Nat → Option String := fun _ => none

/-- Model of `ssh_sftp_write`.  After the SFTP handle exists, a base64
decode failure (line 996) and a remote-create failure (lines 999-1002)
return without restoring non-blocking mode; a chunk-write failure restores
it inside the error closure (line 1007); success restores it at
line 1019. -/
def sshSftpWrite (remotePath : String) (env : SftpWriteEnv) : OpRun Unit :=
  if ¬ env.sessionFound then ⟨Except.error "ssh session not found", []⟩
  else if ¬ env.sftpOk then
    ⟨Except.error env.sftpErr,
      [SEv.acquireSession, SEv.setBlocking true, SEv.socketOp "sftp",
       SEv.setBlocking false, SEv.releaseSession]⟩
  else
    match env.decodeRes with
    | Except.error e =>
      ⟨Except.error e,
        [SEv.acquireSession, SEv.setBlocking true, SEv.socketOp "sftp",
         SEv.releaseSession]⟩
    | Except.ok bytes =>
      if ¬ env.createOk then
        ⟨Except.error env.createErr,
          [SEv.acquireSession, SEv.setBlocking true, SEv.socketOp "sftp",
           SEv.socketOp "create", SEv.releaseSession]⟩
      else
        let (r, loopTr) := uploadLoop remotePath bytes.length env.writeRes
        match r with
        | Except.error e =>
          ⟨Except.error e,
            [SEv.acquireSession, SEv.setBlocking true, SEv.socketOp "sftp",
             SEv.socketOp "create"] ++ loopTr ++ [SEv.releaseSession]⟩
        | Except.ok () =>
          ⟨Except.ok (),
            [SEv.acquireSession, SEv.setBlocking true, SEv.socketOp "sftp",
             SEv.socketOp "create"] ++ loopTr ++
              [SEv.setBlocking false, SEv.releaseSession]⟩

/-! ### ssh_exec (ssh.rs lines 1023-1114) -/

/-- Result rows of `ssh_exec`. -/
structure ExecResultM where
  stdout : String
  stderr : String
  exitCode : Int
  deriving DecidableEq, Repr

/-- A stream read loop of `ssh_exec` (lines 1075-1084 and 1088-1097); each
element is one `read` result, decoded to text, the list end models the
final `Ok(0)`. -/
def execReadLoop : List (Except String String) → Except String String × List SEv
  | [] => (Except.ok "", [SEv.socketOp "read"])
  | Except.ok s :: rest =>
    let (r, tr) := execReadLoop rest
    (r.map (fun t => s ++ t), SEv.socketOp "read" :: tr)
  | Except.error e :: _ => (Except.error e, [SEv.socketOp "read"])

/-- Environment of one `ssh_exec` call. -/
structure ExecEnv where
  sessionFound : Bool := true
  chanOk : Bool := true
  chanErr : String := ""
  execOk : Bool := true
  execErr : String := ""
  stdoutSteps : List (Except String String) := []
  stderrSteps : List (Except String String) := []
  waitCloseOk : Bool := true
  waitCloseErr : String := ""
  exitStatusRes : Option Int := some 0
  deriving Repr

/-- Model of `ssh_exec`: channel creation, command execution, stdout and
stderr read loops and `wait_close` all run in blocking mode under the
session lock; every exit path restores non-blocking mode; the exit status
defaults to 0 when unavailable (`unwrap_or(0)`, line 1105). -/
def sshExec (_command : String) (env : ExecEnv) : OpRun ExecResultM :=
  if ¬ env.sessionFound then ⟨Except.error "ssh session not found", []⟩
  else if ¬ env.chanOk then
    ⟨Except.error ("channel_session: " ++ env.chanErr),
      [SEv.acquireSession, SEv.setBlocking true, SEv.socketOp "channel_session",
       SEv.setBlocking false, SEv.releaseSession]⟩
  else if ¬ env.execOk then
    ⟨Except.error ("exec: " ++ env.execErr),
      [SEv.acquireSession, SEv.setBlocking true, SEv.socketOp "channel_session",
       SEv.socketOp "extended_data", SEv.socketOp "exec",
       SEv.setBlocking false, SEv.releaseSession]⟩
  else
    let prefixTr :=
      [SEv.acquireSession, SEv.setBlocking true, SEv.socketOp "channel_session",
       SEv.socketOp "extended_data", SEv.socketOp "exec"]
    let (r1, t1) := execReadLoop env.stdoutSteps
    match r1 with
    | Except.error e =>
      ⟨Except.error ("read stdout: " ++ e),
        prefixTr ++ t1 ++ [SEv.setBlocking false, SEv.releaseSession]⟩
    | Except.ok outStr =>
      let (r2, t2) := execReadLoop env.stderrSteps
      match r2 with
      | Except.error e =>
        ⟨Except.error ("read stderr: " ++ e),
          prefixTr ++ t1 ++ t2 ++ [SEv.setBlocking false, SEv.releaseSession]⟩
      | Except.ok errStr =>
        if ¬ env.waitCloseOk then
          ⟨Except.error ("wait_close: " ++ env.waitCloseErr),
            prefixTr ++ t1 ++ t2 ++
              [SEv.socketOp "wait_close", SEv.setBlocking false,
               SEv.releaseSession]⟩
        else
          ⟨Except.ok ⟨outStr, errStr, env.exitStatusRes.getD 0⟩,
            prefixTr ++ t1 ++ t2 ++
              [SEv.socketOp "wait_close", SEv.setBlocking false,
               SEv.releaseSession]⟩

/-! ### ssh_deploy_helper (ssh.rs lines 880-959) -/

/-- Environment of one `ssh_deploy_helper` call: the environment of the
inner `ssh_exec("uname -s")` call, the helper binary's size, and the
primitives of the SFTP upload that follows. -/
structure DeployEnv where
  execEnv : ExecEnv := {}
  sessionFound : Bool := true
  sftpOk : Bool := true
  sftpErr : String := ""
  helperLen : Nat := 0
  createOk : Bool := true
  createErr : String := ""
  writeRes : Nat → Option String := fun _ => none

/-- Model of `ssh_deploy_helper` (`remote_path` is the upload target).  The
OS detection runs as a complete `ssh_exec` operation first; the SFTP create
failure at lines 935-938 returns without restoring non-blocking mode;
chunk-write failure and success restore it (lines 944, 957). -/
def sshDeployHelper (remotePath : String) (env : DeployEnv) : OpRun Unit :=
  let ex := sshExec "uname -s" env.execEnv
  match ex.result with
  | Except.error e => ⟨Except.error e, ex.trace⟩
  | Except.ok _ =>
    if ¬ env.sessionFound then
      ⟨Except.error "ssh session not found", ex.trace⟩
    else if ¬ env.sftpOk then
      ⟨Except.error env.sftpErr,
        ex.trace ++
          [SEv.acquireSession, SEv.setBlocking true, SEv.socketOp "sftp",
           SEv.setBlocking false, SEv.releaseSession]⟩
    else if ¬ env.createOk then
      ⟨Except.error env.createErr,
        ex.trace ++
          [SEv.acquireSession, SEv.setBlocking true, SEv.socketOp "sftp",
           SEv.socketOp "create", SEv.releaseSession]⟩
    else
      let (r, loopTr) := uploadLoop remotePath env.helperLen env.writeRes
      match r with
      | Except.error e =>
        ⟨Except.error e,
          ex.trace ++
            [SEv.acquireSession, SEv.setBlocking true, SEv.socketOp "sftp",
             SEv.socketOp "create"] ++ loopTr ++ [SEv.releaseSession]⟩
      | Except.ok () =>
        ⟨Except.ok (),
          ex.trace ++
            [SEv.acquireSession, SEv.setBlocking true, SEv.socketOp "sftp",
             SEv.socketOp "create"] ++ loopTr ++
              [SEv.setBlocking false, SEv.releaseSession]⟩

/-! ### The background channel reader (ssh.rs lines 1487-1559) -/

/-- Result of one read attempt of the background reader. -/
inductive ReaderRead where
  | data : Nat → ReaderRead
  | eof : ReaderRead
  | wouldBlock : ReaderRead
  | readErr : String → ReaderRead
  deriving DecidableEq, Repr

/-- Environment of one iteration of the background reader loop. -/
structure ReaderEnv where
  channelFound : Bool := true
  sessionFoundR : Bool := true
  readRes : ReaderRead := ReaderRead.wouldBlock
  deriving DecidableEq, Repr

/-- Trace of one iteration of the background reader loop
(ssh.rs lines 1493-1551): the channel→session mapping is resolved under the
registry lock, then the session lock is acquired for the read attempt and
released at the end of the block, before any event emission. -/
def readerIterTrace (env : ReaderEnv) : List SEv :=
  if ¬ env.channelFound then []
  else if ¬ env.sessionFoundR then []
  else [SEv.acquireSession, SEv.socketOp "read", SEv.releaseSession]

/-! ### The shell command built by ssh_open_shell (ssh.rs lines 1459-1463)

When a working directory is requested, the source runs
`format!("bash -lc 'cd \"{}\"; exec $SHELL -l'", esc)` where
`esc = dir.replace("'", "'\\''")`.  The command string is modelled at the
character level; the remote shell that receives it is an external
collaborator and is modelled from the spec below. -/

/-- The single-quote character. -/
def sqChar : Char := Char.ofNat 39

/-- The double-quote character. -/
def dqChar : Char := Char.ofNat 34

/-- The backtick character. -/
def btChar : Char := Char.ofNat 96

/-- The backslash character. -/
def bsChar : Char := Char.ofNat 92

/-- Per-character form of `dir.replace("'", "'\\''")` (the pattern is a
single character, so the replacement acts character-wise). -/
def escapeCwdChar (c : Char) : List Char :=
  if c = sqChar then [sqChar, bsChar, sqChar, sqChar] else [c]

/-- Model of `let esc = dir.replace("'", "'\\''")` (ssh.rs line 1460). -/
def shellEscapeCwd (dir : List Char) : List Char :=
  dir.flatMap escapeCwdChar

/-- Model of the command string of ssh.rs line 1461. -/
def shellCwdCommand (dir : List Char) : List Char :=
  "bash -lc ".toList ++ [sqChar] ++ "cd ".toList ++ [dqChar] ++
    shellEscapeCwd dir ++ [dqChar] ++ "; exec $SHELL -l".toList ++ [sqChar]

/-- Modelled from the spec: the remote shell word parser applied to the
`exec` string.  POSIX quoting outside and inside single quotes for a single
word: a backslash outside quotes escapes the next character, a single quote
toggles quoting, everything inside single quotes is literal, an unquoted
space would end the word (the constructions below never produce one).
`esc` records a pending backslash escape. -/
def posixWordAux : Bool → Bool → List Char → Option (List Char)
  | _, true, [] => none
  | false, true, c :: cs => (posixWordAux false false cs).map (fun l => c :: l)
  | true, true, _ => none
  | false, false, [] => some []
  | true, false, [] => none
  | false, false, c :: cs =>
    if c = sqChar then posixWordAux true false cs
    else if c = bsChar then posixWordAux false true cs
    else if c = ' ' then none
    else (posixWordAux false false cs).map (fun l => c :: l)
  | true, false, c :: cs =>
    if c = sqChar then posixWordAux false false cs
    else (posixWordAux true false cs).map (fun l => c :: l)

/-- The word handed to `bash -lc` by the remote shell, when the command has
the shape produced by `ssh_open_shell`. -/
def remoteShellArg (cmd : List Char) : Option (List Char) :=
  if cmd.take 9 = "bash -lc ".toList then posixWordAux false false (cmd.drop 9)
  else none

/-- Scan of a double-quoted body up to the closing quote, succeeding only
when the body is pure literal data: a dollar, backtick or backslash inside
double quotes is shell syntax (expansion or escape), not literal data. -/
def dqLiteralScan : List Char → Option (List Char × List Char)
  | [] => none
  | c :: cs =>
    if c = dqChar then some ([], cs)
    else if c = '$' ∨ c = btChar ∨ c = bsChar then none
    else (dqLiteralScan cs).map (fun r => (c :: r.1, r.2))

/-- Modelled from the spec: the inner `bash -lc` invocation parsing
`cd "<dir>"; exec $SHELL -l`, recovering the directory argument only when
the double-quoted word is interpreted as literal data. -/
def innerCdLiteral (cmd : List Char) : Option (List Char) :=
  if cmd.take 4 = "cd ".toList ++ [dqChar] then
    match dqLiteralScan (cmd.drop 4) with
    | some (lit, rest) =>
      if rest = "; exec $SHELL -l".toList then some lit else none
    | none => none
  else none

/-- The inner command the remote `bash -lc` receives when the outer quoting
is undone (derived below as `remoteShellArg_cwdCommand`). -/
def innerCmd (dir : List Char) : List Char :=
  "cd ".toList ++ [dqChar] ++ dir ++ [dqChar] ++ "; exec $SHELL -l".toList

/-- The directory string as interpreted by the remote side: outer word
extraction followed by the inner literal `cd` argument. -/
def cwdLiteralRoundTrip (dir : List Char) : Option (List Char) :=
  (remoteShellArg (shellCwdCommand dir)).bind innerCdLiteral

/-! ### ssh_close_forward (ssh.rs lines 1360-1391) -/

/-- Model of the forward backend (`ForwardBackend` as used at
lines 1368-1384): a spawned ssh process (with an optional child handle) or
an in-process thread with a shared shutdown flag. -/
inductive FwdBackend where
  | sshProcess : Bool → FwdBackend
  | localThread : Bool → FwdBackend
  deriving DecidableEq, Repr

/-- Events of one `ssh_close_forward` call. -/
inductive FwdEv where
  | removeEntry : String → FwdEv
  | killProc : FwdEv
  | waitProc : FwdEv
  | setShutdownFlag : FwdEv
  | joinThread : FwdEv
  | emitState : String → String → FwdEv
  deriving DecidableEq, Repr

/-- Model of `ssh_close_forward`: the forward entry is removed from the
registry by the lookup itself (`inner.forwards.remove`, line 1367); only
then is the backend torn down (kill+wait for a process, flag+join for a
thread), and finally the `closed` status event is emitted. -/
def sshCloseForward (forwardId : String) (reg : Option FwdBackend) : List FwdEv :=
  match reg with
  | none => []
  | some backend =>
    FwdEv.removeEntry forwardId ::
      ((match backend with
        | FwdBackend.localThread hasThread =>
          FwdEv.setShutdownFlag :: (if hasThread then [FwdEv.joinThread] else [])
        | FwdBackend.sshProcess hasChild =>
          if hasChild then [FwdEv.killProc, FwdEv.waitProc] else []) ++
        [FwdEv.emitState forwardId "closed"])

/-- Position of the first kill event in a forward trace. -/
def fwdKillIdx (tr : List FwdEv) : Option Nat :=
  tr.findIdx? (fun e => e = FwdEv.killProc)

/-- Position of the first entry-removal event in a forward trace. -/
def fwdRemoveIdx (tr : List FwdEv) : Option Nat :=
  tr.findIdx? (fun e => match e with | FwdEv.removeEntry _ => true | _ => false)

/-- The ordering claimed by the spec: the process is killed (and waited on)
before the forward entry is removed. -/
def killedBeforeRemoval (tr : List FwdEv) : Bool :=
  match fwdKillIdx tr, fwdRemoveIdx tr with
  | some k, some r => k < r
  | _, _ => false

/-! ## Helper lemmas -/

theorem underLockAux_append (h : Bool) (t r : List SEv) :
    underLockAux h (t ++ r) =
      (underLockAux h t && underLockAux (lockStateAfter h t) r) := by
  induction t generalizing h with
  | nil => simp [underLockAux, lockStateAfter]
  | cons e t ih =>
    cases e <;> simp [underLockAux, lockStateAfter, ih, Bool.and_assoc]

theorem blockingAfter_append (b : Bool) (t r : List SEv) :
    blockingAfter b (t ++ r) = blockingAfter (blockingAfter b t) r := by
  induction t generalizing b with
  | nil => rfl
  | cons e t ih => cases e <;> simp [blockingAfter, ih]

theorem progressEvents_append (t r : List SEv) :
    progressEvents (t ++ r) = progressEvents t ++ progressEvents r := by
  induction t with
  | nil => rfl
  | cons e t ih => cases e <;> simp [progressEvents, ih]

theorem lockNeutral_underLockAux (t : List SEv) (ht : lockNeutral t = true)
    (r : List SEv) : underLockAux true (t ++ r) = underLockAux true r := by
  induction t with
  | nil => rfl
  | cons e t ih =>
    cases e with
    | acquireSession => exact absurd ht (by simp [lockNeutral])
    | releaseSession => exact absurd ht (by simp [lockNeutral])
    | setBlocking b =>
      simpa [underLockAux] using ih (by simpa [lockNeutral] using ht)
    | socketOp s =>
      simpa [underLockAux] using ih (by simpa [lockNeutral] using ht)
    | progress p w tot =>
      simpa [underLockAux] using ih (by simpa [lockNeutral] using ht)

theorem lockNeutral_state (h : Bool) (t : List SEv)
    (ht : lockNeutral t = true) (r : List SEv) :
    lockStateAfter h (t ++ r) = lockStateAfter h r := by
  induction t with
  | nil => rfl
  | cons e t ih =>
    cases e with
    | acquireSession => exact absurd ht (by simp [lockNeutral])
    | releaseSession => exact absurd ht (by simp [lockNeutral])
    | setBlocking b =>
      simpa [lockStateAfter] using ih (by simpa [lockNeutral] using ht)
    | socketOp s =>
      simpa [lockStateAfter] using ih (by simpa [lockNeutral] using ht)
    | progress p w tot =>
      simpa [lockStateAfter] using ih (by simpa [lockNeutral] using ht)

theorem execReadLoop_lockNeutral (steps : List (Except String String)) :
    lockNeutral (execReadLoop steps).2 = true := by
  induction steps with
  | nil => rfl
  | cons s rest ih =>
    cases s <;> simp_all [execReadLoop, lockNeutral]

theorem readChunksLoop_lockNeutral (steps : List (Except String (List Nat))) :
    lockNeutral (readChunksLoop steps).2 = true := by
  induction steps with
  | nil => rfl
  | cons s rest ih =>
    cases s <;> simp_all [readChunksLoop, lockNeutral]

theorem uploadLoopF_lockNeutral (path : String) (total : Nat)
    (writeRes : Nat → Option String) (fuel w idx : Nat) :
    lockNeutral (uploadLoopF path total writeRes fuel w idx).2 = true := by
  induction fuel generalizing w idx with
  | zero => rfl
  | succ fuel ih =>
    by_cases hw : w < total
    · cases hr : writeRes idx <;>
        simp_all [uploadLoopF, lockNeutral]
    · simp [uploadLoopF, hw, lockNeutral]

theorem mkdirsLoop_lockNeutral (parts : List String) (cur : String) (fs : Fs) :
    lockNeutral (mkdirsLoop parts cur fs).2.2 = true := by
  induction parts generalizing cur fs with
  | nil => rfl
  | cons part rest ih =>
    simp only [mkdirsLoop]
    cases h1 : fsStat fs (mkdirsStep cur part) with
    | some b =>
      cases b with
      | true => simp_all [lockNeutral]
      | false =>
        cases h2 : fsMkdir fs (mkdirsStep cur part) with
        | ok fs1 => simp_all [lockNeutral]
        | error e =>
          cases h3 : fsStat fs (mkdirsStep cur part) <;>
            simp_all [lockNeutral]
    | none =>
      cases h2 : fsMkdir fs (mkdirsStep cur part) with
      | ok fs1 => simp_all [lockNeutral]
      | error e =>
        cases h3 : fsStat fs (mkdirsStep cur part) <;>
          simp_all [lockNeutral]

/-- The full lock discipline of one `ssh_exec` run: socket operations under
the lock, and the lock released at the end. -/
theorem sshExec_lock_clean (cmd : String) (env : ExecEnv) :
    underLockAux false (sshExec cmd env).trace = true ∧
    lockStateAfter false (sshExec cmd env).trace = false := by
  by_cases h1 : env.sessionFound
  case neg => simp [sshExec, h1, underLockAux, lockStateAfter]
  by_cases h2 : env.chanOk
  case neg => simp [sshExec, h1, h2, underLockAux, lockStateAfter]
  by_cases h3 : env.execOk
  case neg => simp [sshExec, h1, h2, h3, underLockAux, lockStateAfter]
  cases hr1 : execReadLoop env.stdoutSteps with
  | mk r1 t1 =>
    cases r1 with
    | error e =>
      have hn1 : lockNeutral t1 = true := by
        have := execReadLoop_lockNeutral env.stdoutSteps
        rw [hr1] at this
        exact this
      constructor
      · simp only [sshExec, h1, h2, h3, if_neg, if_pos, ite_true, ite_false,
          not_true, not_false_iff, hr1]
        simp only [underLockAux, List.append_eq, List.cons_append, List.nil_append, List.append_assoc]
        rw [lockNeutral_underLockAux _ hn1]
        rfl
      · simp only [sshExec, h1, h2, h3, hr1]
        simp only [lockStateAfter, List.append_eq, List.cons_append, List.nil_append, List.append_assoc]
        rw [lockNeutral_state _ _ hn1]
        rfl
    | ok outStr =>
      have hn1 : lockNeutral t1 = true := by
        have := execReadLoop_lockNeutral env.stdoutSteps
        rw [hr1] at this
        exact this
      cases hr2 : execReadLoop env.stderrSteps with
      | mk r2 t2 =>
        have hn2 : lockNeutral t2 = true := by
          have := execReadLoop_lockNeutral env.stderrSteps
          rw [hr2] at this
          exact this
        cases r2 with
        | error e =>
          constructor
          · simp only [sshExec, h1, h2, h3, hr1, hr2]
            simp only [underLockAux, List.append_eq, List.cons_append, List.nil_append, List.append_assoc]
            rw [lockNeutral_underLockAux _ hn1,
              lockNeutral_underLockAux _ hn2]
            rfl
          · simp only [sshExec, h1, h2, h3, hr1, hr2]
            simp only [lockStateAfter, List.append_eq, List.cons_append, List.nil_append, List.append_assoc]
            rw [lockNeutral_state _ _ hn1, lockNeutral_state _ _ hn2]
            rfl
        | ok errStr =>
          by_cases h4 : env.waitCloseOk
          all_goals constructor
          all_goals simp only [sshExec, h1, h2, h3, h4, hr1, hr2]
          all_goals
            simp only [underLockAux, lockStateAfter, List.append_eq,
              List.cons_append, List.nil_append, List.append_assoc, ite_true,
              ite_false]
          all_goals
            first
            | (rw [lockNeutral_underLockAux _ hn1,
                lockNeutral_underLockAux _ hn2]; rfl)
            | (rw [lockNeutral_state _ _ hn1, lockNeutral_state _ _ hn2];
                rfl)

theorem sshSftpList_underLock (env : SftpListEnv) :
    socketOpsUnderLock (sshSftpList env).trace = true := by
  by_cases h1 : env.sessionFound <;> by_cases h2 : env.sftpOk <;>
    by_cases h3 : env.readdirOk <;>
      simp [sshSftpList, socketOpsUnderLock, underLockAux, h1, h2, h3]

theorem sshSftpRead_underLock (env : SftpReadEnv) :
    socketOpsUnderLock (sshSftpRead env).trace = true := by
  by_cases h1 : env.sessionFound
  case neg => simp [sshSftpRead, socketOpsUnderLock, underLockAux, h1]
  by_cases h2 : env.sftpOk
  case neg => simp [sshSftpRead, socketOpsUnderLock, underLockAux, h1, h2]
  by_cases h3 : env.openOk
  case neg => simp [sshSftpRead, socketOpsUnderLock, underLockAux, h1, h2, h3]
  cases hr : readChunksLoop env.steps with
  | mk r t =>
    have hn : lockNeutral t = true := by
      have := readChunksLoop_lockNeutral env.steps
      rw [hr] at this
      exact this
    cases r <;>
    · simp only [sshSftpRead, socketOpsUnderLock, h1, h2, h3, hr, ite_true,
        ite_false, not_true, not_false_iff, if_neg, if_pos]
      simp only [underLockAux, List.append_eq, List.cons_append,
        List.nil_append, List.append_assoc]
      rw [lockNeutral_underLockAux _ hn]
      rfl

theorem sshSftpMkdirs_underLock (env : MkdirsEnv) (path : String) (fs : Fs) :
    socketOpsUnderLock (sshSftpMkdirs env path fs).trace = true := by
  by_cases h1 : env.sessionFound
  case neg => simp [sshSftpMkdirs, socketOpsUnderLock, underLockAux, h1]
  by_cases h2 : env.sftpOk
  case neg => simp [sshSftpMkdirs, socketOpsUnderLock, underLockAux, h1, h2]
  rcases hr : mkdirsLoop (mkdirsSegments path) (mkdirsInit path) fs with
    ⟨r, fs2, t⟩
  have hn : lockNeutral t = true := by
    have := mkdirsLoop_lockNeutral (mkdirsSegments path) (mkdirsInit path) fs
    rw [hr] at this
    exact this
  simp only [sshSftpMkdirs, socketOpsUnderLock, h1, h2, hr, ite_true,
    ite_false, not_true, not_false_iff, if_neg, if_pos]
  simp only [underLockAux, List.append_eq, List.cons_append, List.nil_append,
    List.append_assoc]
  rw [lockNeutral_underLockAux _ hn]
  rfl

theorem sshSftpWrite_underLock (p : String) (env : SftpWriteEnv) :
    socketOpsUnderLock (sshSftpWrite p env).trace = true := by
  by_cases h1 : env.sessionFound
  case neg => simp [sshSftpWrite, socketOpsUnderLock, underLockAux, h1]
  by_cases h2 : env.sftpOk
  case neg => simp [sshSftpWrite, socketOpsUnderLock, underLockAux, h1, h2]
  cases hd : env.decodeRes with
  | error e =>
    simp [sshSftpWrite, socketOpsUnderLock, underLockAux, h1, h2, hd]
  | ok bytes =>
    by_cases h3 : env.createOk
    case neg =>
      simp [sshSftpWrite, socketOpsUnderLock, underLockAux, h1, h2, h3, hd]
    cases hr : uploadLoop p bytes.length env.writeRes with
    | mk r t =>
      have hn : lockNeutral t = true := by
        have := uploadLoopF_lockNeutral p bytes.length env.writeRes
          bytes.length 0 0
        rw [show uploadLoopF p bytes.length env.writeRes bytes.length 0 0 =
          uploadLoop p bytes.length env.writeRes from rfl, hr] at this
        exact this
      cases r <;>
      · simp only [sshSftpWrite, socketOpsUnderLock, h1, h2, h3, hd, hr,
          ite_true, ite_false, not_true, not_false_iff, if_neg, if_pos]
        simp only [underLockAux, List.append_eq, List.cons_append,
          List.nil_append, List.append_assoc]
        rw [lockNeutral_underLockAux _ hn]
        rfl

theorem sshDeployHelper_underLock (p : String) (env : DeployEnv) :
    socketOpsUnderLock (sshDeployHelper p env).trace = true := by
  have hex := sshExec_lock_clean "uname -s" env.execEnv
  cases hx : (sshExec "uname -s" env.execEnv).result with
  | error e =>
    simpa [sshDeployHelper, socketOpsUnderLock, hx] using hex.1
  | ok v =>
    have hcomp : ∀ tail : List SEv,
        underLockAux false ((sshExec "uname -s" env.execEnv).trace ++ tail) =
          underLockAux false tail := by
      intro tail
      rw [underLockAux_append, hex.1, hex.2, Bool.true_and]
    by_cases h1 : env.sessionFound
    case neg =>
      simpa [sshDeployHelper, socketOpsUnderLock, hx, h1] using hex.1
    by_cases h2 : env.sftpOk
    case neg =>
      simp [sshDeployHelper, socketOpsUnderLock, hx, h1, h2, hcomp,
        underLockAux]
    by_cases h3 : env.createOk
    case neg =>
      simp [sshDeployHelper, socketOpsUnderLock, hx, h1, h2, h3, hcomp,
        underLockAux]
    cases hr : uploadLoop p env.helperLen env.writeRes with
    | mk r t =>
      have hn : lockNeutral t = true := by
        have := uploadLoopF_lockNeutral p env.helperLen env.writeRes
          env.helperLen 0 0
        rw [show uploadLoopF p env.helperLen env.writeRes env.helperLen 0 0 =
          uploadLoop p env.helperLen env.writeRes from rfl, hr] at this
        exact this
      cases r <;>
      · simp [sshDeployHelper, socketOpsUnderLock, hx, h1, h2, h3, hr, hcomp,
          underLockAux, lockNeutral_underLockAux _ hn]

theorem readerIter_underLock (env : ReaderEnv) :
    socketOpsUnderLock (readerIterTrace env) = true := by
  by_cases h1 : env.channelFound <;> by_cases h2 : env.sessionFoundR <;>
    simp [readerIterTrace, socketOpsUnderLock, underLockAux, h1, h2]

theorem posix_in_sq (l : List Char) :
    posixWordAux true false (sqChar :: l) = posixWordAux false false l := by
  simp [posixWordAux]

theorem posix_in_other (c : Char) (hc : ¬ c = sqChar) (l : List Char) :
    posixWordAux true false (c :: l) =
      (posixWordAux true false l).map (fun r => c :: r) := by
  simp [posixWordAux, hc]

theorem posix_out_sq (l : List Char) :
    posixWordAux false false (sqChar :: l) = posixWordAux true false l := by
  simp [posixWordAux]

theorem posix_out_bs (l : List Char) :
    posixWordAux false false (bsChar :: l) = posixWordAux false true l := by
  have h1 : ¬ (bsChar = sqChar) := by decide
  simp [posixWordAux, h1]

theorem posix_pending (c : Char) (l : List Char) :
    posixWordAux false true (c :: l) =
      (posixWordAux false false l).map (fun r => c :: r) := by
  simp [posixWordAux]

theorem posix_escape (dir : List Char) : ∀ suffix : List Char,
    posixWordAux true false (shellEscapeCwd dir ++ suffix) =
      (posixWordAux true false suffix).map (fun r => dir ++ r) := by
  induction dir with
  | nil =>
    intro suffix
    have h0 : shellEscapeCwd [] = [] := rfl
    rw [h0, List.nil_append]
    cases posixWordAux true false suffix <;> simp
  | cons c cs ih =>
    intro suffix
    have hstep : shellEscapeCwd (c :: cs) =
        escapeCwdChar c ++ shellEscapeCwd cs := rfl
    by_cases hc : c = sqChar
    · subst hc
      have hesc : escapeCwdChar sqChar = [sqChar, bsChar, sqChar, sqChar] := by
        simp [escapeCwdChar]
      rw [hstep, hesc]
      simp only [List.cons_append, List.nil_append, List.append_assoc]
      rw [posix_in_sq, posix_out_bs, posix_pending, posix_out_sq, ih suffix]
      cases posixWordAux true false suffix <;> simp
    · have hesc : escapeCwdChar c = [c] := by simp [escapeCwdChar, hc]
      rw [hstep, hesc]
      simp only [List.cons_append, List.nil_append]
      rw [posix_in_other c hc, ih suffix]
      cases posixWordAux true false suffix <;> simp

theorem posix_literal (seg : List Char) (hs : ∀ c ∈ seg, ¬ c = sqChar) :
    ∀ suffix : List Char,
    posixWordAux true false (seg ++ suffix) =
      (posixWordAux true false suffix).map (fun r => seg ++ r) := by
  induction seg with
  | nil =>
    intro suffix
    rw [List.nil_append]
    cases posixWordAux true false suffix <;> simp
  | cons c cs ih =>
    intro suffix
    have hc : ¬ c = sqChar := hs c (List.mem_cons_self c cs)
    rw [List.cons_append, posix_in_other c hc,
      ih (fun d hd => hs d (List.mem_cons_of_mem c hd)) suffix]
    cases posixWordAux true false suffix <;> simp

theorem remoteShellArg_cwdCommand (dir : List Char) :
    remoteShellArg (shellCwdCommand dir) = some (innerCmd dir) := by
  have hsplit : shellCwdCommand dir =
      "bash -lc ".toList ++
        ([sqChar] ++
          (("cd ".toList ++ [dqChar]) ++
            (shellEscapeCwd dir ++
              (([dqChar] ++ "; exec $SHELL -l".toList) ++ [sqChar])))) := by
    simp [shellCwdCommand, List.append_assoc]
  unfold remoteShellArg
  rw [hsplit, List.take_left' (by rfl), List.drop_left' (by rfl), if_pos rfl]
  rw [show ([sqChar] ++
      (("cd ".toList ++ [dqChar]) ++
        (shellEscapeCwd dir ++
          (([dqChar] ++ "; exec $SHELL -l".toList) ++ [sqChar])))) =
    (sqChar ::
      (("cd ".toList ++ [dqChar]) ++
        (shellEscapeCwd dir ++
          (([dqChar] ++ "; exec $SHELL -l".toList) ++ [sqChar])))) from rfl]
  rw [show posixWordAux false false
      (sqChar ::
        (("cd ".toList ++ [dqChar]) ++
          (shellEscapeCwd dir ++
            (([dqChar] ++ "; exec $SHELL -l".toList) ++ [sqChar])))) =
    posixWordAux true false
      (("cd ".toList ++ [dqChar]) ++
        (shellEscapeCwd dir ++
          (([dqChar] ++ "; exec $SHELL -l".toList) ++ [sqChar]))) from by
    simp [posixWordAux]]
  rw [posix_literal ("cd ".toList ++ [dqChar]) (by decide)]
  rw [posix_escape dir]
  rw [posix_literal ([dqChar] ++ "; exec $SHELL -l".toList) (by decide)]
  rw [show posixWordAux true false [sqChar] = some [] from rfl]
  simp [innerCmd, List.append_assoc]

theorem dqScan_clean (dir : List Char)
    (hd : ∀ c ∈ dir, ¬ (c = dqChar ∨ c = '$' ∨ c = btChar ∨ c = bsChar))
    (rest : List Char) :
    dqLiteralScan (dir ++ (dqChar :: rest)) = some (dir, rest) := by
  induction dir with
  | nil => simp [dqLiteralScan]
  | cons c cs ih =>
    have h1 := hd c (List.mem_cons_self c cs)
    have hc1 : ¬ c = dqChar := fun h => h1 (Or.inl h)
    have hc2 : ¬ (c = '$' ∨ c = btChar ∨ c = bsChar) := fun h => h1 (Or.inr h)
    rw [List.cons_append]
    simp only [dqLiteralScan, if_neg hc1, if_neg hc2]
    rw [ih (fun d hdm => hd d (List.mem_cons_of_mem c hdm))]
    rfl

theorem innerCdLiteral_clean (dir : List Char)
    (hd : ∀ c ∈ dir, ¬ (c = dqChar ∨ c = '$' ∨ c = btChar ∨ c = bsChar)) :
    innerCdLiteral (innerCmd dir) = some dir := by
  have hre : innerCmd dir =
      ("cd ".toList ++ [dqChar]) ++
        (dir ++ (dqChar :: "; exec $SHELL -l".toList)) := by
    simp [innerCmd, List.append_assoc]
  unfold innerCdLiteral
  rw [hre, List.take_left' (by rfl), List.drop_left' (by rfl), if_pos rfl,
    dqScan_clean dir hd]
  simp

theorem uploadLoopF_events (path : String) (total : Nat)
    (wr : Nat → Option String) (hok : ∀ i, wr i = none) :
    ∀ fuel w idx, total - w ≤ fuel →
      (uploadLoopF path total wr fuel w idx).1 = Except.ok () ∧
      progressEvents (uploadLoopF path total wr fuel w idx).2 =
        List.map
          (fun i => (⟨path, min (w + (i + 1) * 8192) total, total⟩ : ProgressEv))
          (List.range ((total - w + 8191) / 8192)) := by
  intro fuel
  induction fuel with
  | zero =>
    intro w idx hfuel
    have hw : total - w = 0 := Nat.le_zero.mp hfuel
    rw [hw]
    simp [uploadLoopF, progressEvents]
  | succ fuel ih =>
    intro w idx hfuel
    by_cases hw : w < total
    · have hnext : total - min (w + 8192) total ≤ fuel := by omega
      obtain ⟨ihr, ihe⟩ := ih (min (w + 8192) total) (idx + 1) hnext
      constructor
      · simp only [uploadLoopF, if_pos hw, hok idx]
        exact ihr
      · simp only [uploadLoopF, if_pos hw, hok idx, progressEvents]
        rw [ihe]
        have hk : (total - w + 8191) / 8192 =
            (total - min (w + 8192) total + 8191) / 8192 + 1 := by omega
        rw [hk, List.range_succ_eq_map, List.map_cons, List.map_map]
        congr 1
        apply List.map_congr_left
        intro i _
        simp only [Function.comp]
        congr 1
        omega
    · have hw0 : total - w = 0 := by omega
      rw [hw0]
      simp [uploadLoopF, hw, progressEvents]

theorem progressEvents_execReadLoop (steps : List (Except String String)) :
    progressEvents (execReadLoop steps).2 = [] := by
  induction steps with
  | nil => rfl
  | cons s rest ih => cases s <;> simp_all [execReadLoop, progressEvents]

theorem progressEvents_sshExec (cmd : String) (env : ExecEnv) :
    progressEvents (sshExec cmd env).trace = [] := by
  by_cases h1 : env.sessionFound
  case neg => simp [sshExec, h1, progressEvents]
  by_cases h2 : env.chanOk
  case neg => simp [sshExec, h1, h2, progressEvents]
  by_cases h3 : env.execOk
  case neg => simp [sshExec, h1, h2, h3, progressEvents]
  cases hr1 : execReadLoop env.stdoutSteps with
  | mk r1 t1 =>
    have hp1 : progressEvents t1 = [] := by
      have := progressEvents_execReadLoop env.stdoutSteps
      rw [hr1] at this
      exact this
    cases r1 with
    | error e =>
      simp [sshExec, h1, h2, h3, hr1, progressEvents, progressEvents_append,
        hp1]
    | ok outStr =>
      cases hr2 : execReadLoop env.stderrSteps with
      | mk r2 t2 =>
        have hp2 : progressEvents t2 = [] := by
          have := progressEvents_execReadLoop env.stderrSteps
          rw [hr2] at this
          exact this
        cases r2 <;> by_cases h4 : env.waitCloseOk <;>
          simp [sshExec, h1, h2, h3, h4, hr1, hr2, progressEvents,
            progressEvents_append, hp1, hp2]

theorem map_range_getLast (f : Nat → ProgressEv) (k : Nat) (hk : 0 < k) :
    (List.map f (List.range k)).getLast? = some (f (k - 1)) := by
  cases k with
  | zero => omega
  | succ m =>
    rw [List.range_succ, List.map_append, List.map_singleton,
      List.getLast?_concat]
    simp

theorem upload_map_props (p : String) (N : Nat) (evs : List ProgressEv)
    (he : evs =
      List.map (fun i => (⟨p, min ((i + 1) * 8192) N, N⟩ : ProgressEv))
        (List.range ((N + 8191) / 8192))) :
    evs.length = (N + 8191) / 8192 ∧
    (∀ ev ∈ evs, ev.path = p ∧ ev.total = N) ∧
    (0 < N → evs.getLast? = some ⟨p, N, N⟩) := by
  subst he
  refine ⟨by simp, ?_, ?_⟩
  · intro ev hev
    simp only [List.mem_map, List.mem_range] at hev
    obtain ⟨i, _, rfl⟩ := hev
    exact ⟨rfl, rfl⟩
  · intro hN
    have hk : 0 < (N + 8191) / 8192 := by omega
    rw [map_range_getLast _ _ hk]
    have hmin : min (((N + 8191) / 8192 - 1 + 1) * 8192) N = N :=
      Nat.min_eq_right (by omega)
    simp [hmin]

theorem sshSftpWrite_progress (wpath : String) (env : SftpWriteEnv)
    (bytes : List Nat)
    (h1 : env.sessionFound = true) (h2 : env.sftpOk = true)
    (h3 : env.decodeRes = Except.ok bytes) (h4 : env.createOk = true)
    (h5 : ∀ i, env.writeRes i = none) :
    progressEvents (sshSftpWrite wpath env).trace =
      List.map
        (fun i =>
          (⟨wpath, min ((i + 1) * 8192) bytes.length, bytes.length⟩ :
            ProgressEv))
        (List.range ((bytes.length + 8191) / 8192)) := by
  obtain ⟨hr, he⟩ := uploadLoopF_events wpath bytes.length env.writeRes h5
    bytes.length 0 0 (by omega)
  cases hu : uploadLoop wpath bytes.length env.writeRes with
  | mk r t =>
    have hu' : uploadLoopF wpath bytes.length env.writeRes bytes.length 0 0 =
        (r, t) := hu
    rw [hu'] at hr he
    simp only at hr he
    subst hr
    simp only [sshSftpWrite, h1, h2, h3, h4, hu, ite_true, ite_false,
      not_true, not_false_iff, if_neg, if_pos]
    rw [progressEvents_append, progressEvents_append]
    simp only [progressEvents, List.nil_append, List.append_nil]
    rw [he]
    apply List.map_congr_left
    intro i _
    simp

theorem sshDeployHelper_progress (dpath : String) (env : DeployEnv)
    (xr : ExecResultM)
    (d0 : (sshExec "uname -s" env.execEnv).result = Except.ok xr)
    (d1 : env.sessionFound = true) (d2 : env.sftpOk = true)
    (d3 : env.createOk = true) (d4 : ∀ i, env.writeRes i = none) :
    progressEvents (sshDeployHelper dpath env).trace =
      List.map
        (fun i =>
          (⟨dpath, min ((i + 1) * 8192) env.helperLen, env.helperLen⟩ :
            ProgressEv))
        (List.range ((env.helperLen + 8191) / 8192)) := by
  obtain ⟨hr, he⟩ := uploadLoopF_events dpath env.helperLen env.writeRes d4
    env.helperLen 0 0 (by omega)
  cases hu : uploadLoop dpath env.helperLen env.writeRes with
  | mk r t =>
    have hu' : uploadLoopF dpath env.helperLen env.writeRes env.helperLen 0 0 =
        (r, t) := hu
    rw [hu'] at hr he
    simp only at hr he
    subst hr
    simp only [sshDeployHelper, d0, d1, d2, d3, hu, ite_true, ite_false,
      not_true, not_false_iff, if_neg, if_pos]
    rw [progressEvents_append, progressEvents_append, progressEvents_append]
    rw [progressEvents_sshExec]
    simp only [progressEvents, List.nil_append, List.append_nil]
    rw [he]
    apply List.map_congr_left
    intro i _
    simp

theorem fsStat_cons (q : String) (b : Bool) (fs : Fs) (p : String) :
    fsStat ((q, b) :: fs) p = if q = p then some b else fsStat fs p := by
  by_cases h : q = p <;> simp [fsStat, List.find?, h]

theorem mkdirsLoop_mono (parts : List String) : ∀ cur fs,
    (mkdirsLoop parts cur fs).1 = Except.ok () →
    ∀ p v, fsStat fs p = some v →
      fsStat (mkdirsLoop parts cur fs).2.1 p = some v := by
  induction parts with
  | nil => intro cur fs _ p v hp; exact hp
  | cons part rest ih =>
    intro cur fs hok p v hp
    cases h1 : fsStat fs (mkdirsStep cur part) with
    | some b =>
      cases b with
      | true =>
        have h2 : (mkdirsLoop (part :: rest) cur fs) =
            ((mkdirsLoop rest (mkdirsStep cur part) fs).1,
             (mkdirsLoop rest (mkdirsStep cur part) fs).2.1,
             SEv.socketOp "stat" :: (mkdirsLoop rest (mkdirsStep cur part) fs).2.2) := by
          simp [mkdirsLoop, h1]
        rw [h2] at hok ⊢
        exact ih (mkdirsStep cur part) fs hok p v hp
      | false =>
        have h2 : (mkdirsLoop (part :: rest) cur fs).1 =
            Except.error "sftp mkdir failed" := by
          simp [mkdirsLoop, h1, fsMkdir]
        rw [h2] at hok
        exact absurd hok (by simp)
    | none =>
      have hmk : fsMkdir fs (mkdirsStep cur part) =
          Except.ok ((mkdirsStep cur part, true) :: fs) := by
        simp [fsMkdir, h1]
      have h2 : (mkdirsLoop (part :: rest) cur fs) =
          ((mkdirsLoop rest (mkdirsStep cur part)
              ((mkdirsStep cur part, true) :: fs)).1,
           (mkdirsLoop rest (mkdirsStep cur part)
              ((mkdirsStep cur part, true) :: fs)).2.1,
           SEv.socketOp "stat" :: SEv.socketOp "mkdir" ::
             (mkdirsLoop rest (mkdirsStep cur part)
                ((mkdirsStep cur part, true) :: fs)).2.2) := by
        simp [mkdirsLoop, h1, hmk]
      rw [h2] at hok ⊢
      refine ih (mkdirsStep cur part) ((mkdirsStep cur part, true) :: fs) hok
        p v ?_
      rw [fsStat_cons]
      have hne : ¬ mkdirsStep cur part = p := by
        intro hcontra
        rw [hcontra] at h1
        rw [h1] at hp
        exact Option.noConfusion hp
      rw [if_neg hne]
      exact hp

theorem mkdirsLoop_idem (parts : List String) : ∀ cur fs,
    (mkdirsLoop parts cur fs).1 = Except.ok () →
    (mkdirsLoop parts cur (mkdirsLoop parts cur fs).2.1).1 = Except.ok () ∧
    (mkdirsLoop parts cur (mkdirsLoop parts cur fs).2.1).2.1 =
      (mkdirsLoop parts cur fs).2.1 := by
  induction parts with
  | nil => intro cur fs _; exact ⟨rfl, rfl⟩
  | cons part rest ih =>
    intro cur fs hok
    cases h1 : fsStat fs (mkdirsStep cur part) with
    | some b =>
      cases b with
      | true =>
        have h2 : (mkdirsLoop (part :: rest) cur fs) =
            ((mkdirsLoop rest (mkdirsStep cur part) fs).1,
             (mkdirsLoop rest (mkdirsStep cur part) fs).2.1,
             SEv.socketOp "stat" ::
               (mkdirsLoop rest (mkdirsStep cur part) fs).2.2) := by
          simp [mkdirsLoop, h1]
        rw [h2] at hok
        simp only at hok
        have hfs' : fsStat (mkdirsLoop rest (mkdirsStep cur part) fs).2.1
            (mkdirsStep cur part) = some true :=
          mkdirsLoop_mono rest (mkdirsStep cur part) fs hok _ _ h1
        have h3 : (mkdirsLoop (part :: rest) cur
            (mkdirsLoop rest (mkdirsStep cur part) fs).2.1) =
            ((mkdirsLoop rest (mkdirsStep cur part)
                (mkdirsLoop rest (mkdirsStep cur part) fs).2.1).1,
             (mkdirsLoop rest (mkdirsStep cur part)
                (mkdirsLoop rest (mkdirsStep cur part) fs).2.1).2.1,
             SEv.socketOp "stat" ::
               (mkdirsLoop rest (mkdirsStep cur part)
                  (mkdirsLoop rest (mkdirsStep cur part) fs).2.1).2.2) := by
          simp [mkdirsLoop, hfs']
        rw [h2, h3]
        simp only
        exact ih (mkdirsStep cur part) fs hok
      | false =>
        have h2 : (mkdirsLoop (part :: rest) cur fs).1 =
            Except.error "sftp mkdir failed" := by
          simp [mkdirsLoop, h1, fsMkdir]
        rw [h2] at hok
        exact absurd hok (by simp)
    | none =>
      have hmk : fsMkdir fs (mkdirsStep cur part) =
          Except.ok ((mkdirsStep cur part, true) :: fs) := by
        simp [fsMkdir, h1]
      have h2 : (mkdirsLoop (part :: rest) cur fs) =
          ((mkdirsLoop rest (mkdirsStep cur part)
              ((mkdirsStep cur part, true) :: fs)).1,
           (mkdirsLoop rest (mkdirsStep cur part)
              ((mkdirsStep cur part, true) :: fs)).2.1,
           SEv.socketOp "stat" :: SEv.socketOp "mkdir" ::
             (mkdirsLoop rest (mkdirsStep cur part)
                ((mkdirsStep cur part, true) :: fs)).2.2) := by
        simp [mkdirsLoop, h1, hmk]
      rw [h2] at hok
      simp only at hok
      have hhead : fsStat ((mkdirsStep cur part, true) :: fs)
          (mkdirsStep cur part) = some true := by
        rw [fsStat_cons, if_pos rfl]
      have hfs' : fsStat (mkdirsLoop rest (mkdirsStep cur part)
          ((mkdirsStep cur part, true) :: fs)).2.1 (mkdirsStep cur part) =
          some true :=
        mkdirsLoop_mono rest (mkdirsStep cur part) _ hok _ _ hhead
      have h3 : (mkdirsLoop (part :: rest) cur
          (mkdirsLoop rest (mkdirsStep cur part)
            ((mkdirsStep cur part, true) :: fs)).2.1) =
          ((mkdirsLoop rest (mkdirsStep cur part)
              (mkdirsLoop rest (mkdirsStep cur part)
                ((mkdirsStep cur part, true) :: fs)).2.1).1,
           (mkdirsLoop rest (mkdirsStep cur part)
              (mkdirsLoop rest (mkdirsStep cur part)
                ((mkdirsStep cur part, true) :: fs)).2.1).2.1,
           SEv.socketOp "stat" ::
             (mkdirsLoop rest (mkdirsStep cur part)
                (mkdirsLoop rest (mkdirsStep cur part)
                  ((mkdirsStep cur part, true) :: fs)).2.1).2.2) := by
        simp [mkdirsLoop, hfs']
      rw [h2, h3]
      simp only
      exact ih (mkdirsStep cur part) ((mkdirsStep cur part, true) :: fs) hok

/-! ## Claim theorems -/

/-- C2: a known-hosts mismatch makes `ssh_connect` fail with an error, for
every value of the auto-trust flag (the profile — hence `trust_host` — is
universally quantified); it never appends to the store and never reaches
the authentication section. -/
theorem connect_mismatch_always_fatal (p : SshProfile) (env : ConnectEnv)
    (hdir : String) (key : List Nat) (kt : HostKeyType)
    (h1 : env.tcpOk = true) (h2 : env.sessionNewOk = true)
    (h3 : env.cloneOk = true) (h4 : env.handshakeOk = true)
    (h5 : env.khAvailable = true) (h6 : env.home = some hdir)
    (h7 : env.hostKey = some (key, kt))
    (h8 : env.check = CheckResult.mismatch) :
    (sshConnect p env).outcome =
      ConnectOutcome.err
        ("known_hosts mismatch for " ++
          (normalizeHost p.host ++ ":" ++ toString p.port)) ∧
    (sshConnect p env).khWrites = [] ∧
    (sshConnect p env).reachedAuth = false := by
  simp [sshConnect, trustVerify, h1, h2, h3, h4, h5, h6, h7, h8]

/-- Witness for C2 at a concrete profile and environment. -/
theorem connect_mismatch_always_fatal_witness :
    (sshConnect
        { host := "TestHost", port := 22, user := "alice",
          auth := some { password := some "pw" }, trustHost := some true }
        { hostKey := some ([1, 2, 3], HostKeyType.ed25519),
          check := CheckResult.mismatch }).outcome =
      ConnectOutcome.err "known_hosts mismatch for testhost:22" := by
  have h := connect_mismatch_always_fatal
    { host := "TestHost", port := 22, user := "alice",
      auth := some { password := some "pw" }, trustHost := some true }
    { hostKey := some ([1, 2, 3], HostKeyType.ed25519),
      check := CheckResult.mismatch }
    "/home/user" [1, 2, 3] HostKeyType.ed25519
    rfl rfl rfl rfl rfl rfl rfl rfl
  exact h.1.trans (by decide)

/-- C3: when the known-hosts lookup is not-found (or the check itself
fails) and auto-trust is off, `ssh_connect` returns the structured
confirmation payload — normalized host, port, key-type name and SHA-256
fingerprint of the offered key — and not a session identifier, and appends
nothing to the store. -/
theorem connect_unknown_key_prompts (p : SshProfile) (env : ConnectEnv)
    (hdir : String) (key : List Nat) (kt : HostKeyType)
    (h1 : env.tcpOk = true) (h2 : env.sessionNewOk = true)
    (h3 : env.cloneOk = true) (h4 : env.handshakeOk = true)
    (h5 : env.khAvailable = true) (h6 : env.home = some hdir)
    (h7 : env.hostKey = some (key, kt))
    (h8 : env.check = CheckResult.notFound ∨ env.check = CheckResult.failure)
    (h9 : p.trustHost.getD false = false) :
    (sshConnect p env).outcome =
      ConnectOutcome.prompt
        ⟨normalizeHost p.host, p.port, keyTypeNamePrompt kt,
          fingerprintSha256 key⟩ ∧
    (sshConnect p env).khWrites = [] ∧
    (∀ sid, (sshConnect p env).outcome ≠ ConnectOutcome.ok sid) := by
  rcases h8 with h8 | h8 <;>
    simp [sshConnect, trustVerify, h1, h2, h3, h4, h5, h6, h7, h8, h9]

/-- Witness for C3: the spec's scenario — `testhost:22` as `alice` with a
password, host key absent from known_hosts, auto-trust false — yields the
confirmation payload with host "testhost" and port 22. -/
theorem connect_unknown_key_prompts_witness :
    (sshConnect
        { host := "testhost", port := 22, user := "alice",
          auth := some { password := some "pw" } }
        { hostKey := some ([1, 2, 3], HostKeyType.ed25519),
          check := CheckResult.notFound }).outcome =
      ConnectOutcome.prompt
        ⟨"testhost", 22, "ssh-ed25519", fingerprintSha256 [1, 2, 3]⟩ := by
  have h := connect_unknown_key_prompts
    { host := "testhost", port := 22, user := "alice",
      auth := some { password := some "pw" } }
    { hostKey := some ([1, 2, 3], HostKeyType.ed25519),
      check := CheckResult.notFound }
    "/home/user" [1, 2, 3] HostKeyType.ed25519
    rfl rfl rfl rfl rfl rfl rfl (Or.inl rfl) rfl
  have hn : normalizeHost "testhost" = "testhost" := by decide
  refine h.1.trans ?_
  rw [hn]
  rfl

/-- C7: a known-hosts match never writes to the store; not-found with
auto-trust on (and a writable store) appends exactly the single line
`<host> <key-type> <base64-key>` and proceeds to authentication. -/
theorem connect_kh_write_discipline (p : SshProfile) (env : ConnectEnv)
    (hdir : String) (key : List Nat) (kt : HostKeyType)
    (h1 : env.tcpOk = true) (h2 : env.sessionNewOk = true)
    (h3 : env.cloneOk = true) (h4 : env.handshakeOk = true)
    (h5 : env.khAvailable = true) (h6 : env.home = some hdir)
    (h7 : env.hostKey = some (key, kt)) :
    (env.check = CheckResult.isMatch → (sshConnect p env).khWrites = []) ∧
    (env.check = CheckResult.notFound → p.trustHost.getD false = true →
      env.khOpenOk = true →
      (sshConnect p env).khWrites =
        [normalizeHost p.host ++ " " ++ keyTypeNameTrusted kt ++ " " ++
          base64Encode key ++ "\n"] ∧
      (sshConnect p env).reachedAuth = true) := by
  constructor
  · intro h8
    cases hca : connectAuth p.auth env <;>
      by_cases h11 : env.setNonblockingOk <;>
        simp [sshConnect, trustVerify, h1, h2, h3, h4, h5, h6, h7, h8, h11, hca]
  · intro h8 h9 h10
    cases hca : connectAuth p.auth env <;>
      by_cases h11 : env.setNonblockingOk <;>
        simp [sshConnect, trustVerify, khLine, h1, h2, h3, h4, h5, h6, h7, h8,
          h9, h10, h11, hca]

/-- Witness for C7 at a concrete profile and environment (not-found with
auto-trust on). -/
theorem connect_kh_write_discipline_witness :
    (sshConnect
        { host := "testhost", port := 22, user := "alice",
          auth := some { password := some "pw" }, trustHost := some true }
        { hostKey := some ([1, 2, 3], HostKeyType.ed25519),
          check := CheckResult.notFound }).khWrites =
      ["testhost ssh-ed25519 " ++ base64Encode [1, 2, 3] ++ "\n"] := by
  have h := connect_kh_write_discipline
    { host := "testhost", port := 22, user := "alice",
      auth := some { password := some "pw" }, trustHost := some true }
    { hostKey := some ([1, 2, 3], HostKeyType.ed25519),
      check := CheckResult.notFound }
    "/home/user" [1, 2, 3] HostKeyType.ed25519
    rfl rfl rfl rfl rfl rfl rfl
  have h2 := (h.2 rfl rfl rfl).1
  exact h2.trans (by decide)

/-- C4: when the known-hosts object cannot be created, or HOME is unset, or
the server offers no host key, `ssh_connect` skips verification entirely —
no store consultation, no writes — and proceeds to the authentication
section, independently of the auto-trust flag; and the split connections
opened by `ssh_open_shell` never consult the known-hosts store at all. -/
theorem connect_skips_verification (p : SshProfile) (env : ConnectEnv)
    (h1 : env.tcpOk = true) (h2 : env.sessionNewOk = true)
    (h3 : env.cloneOk = true) (h4 : env.handshakeOk = true)
    (h5 : env.khAvailable = false ∨ env.home = none ∨ env.hostKey = none) :
    (sshConnect p env).consultedKnownHosts = false ∧
    (sshConnect p env).khWrites = [] ∧
    (sshConnect p env).reachedAuth = true ∧
    (∀ t, sshConnect { p with trustHost := t } env = sshConnect p env) ∧
    (∀ host port user auth env2,
      (openShellSplitConnect host port user auth env2).consultedKnownHosts =
        false ∧
      (openShellSplitConnect host port user auth env2).khWrites = []) := by
  have htv : ∀ t : Option Bool,
      trustVerify (normalizeHost p.host) p.port (t.getD false) env =
        ⟨none, [], false⟩ := by
    intro t
    rcases h5 with h5 | h5 | h5
    · simp [trustVerify, h5]
    · by_cases hk : env.khAvailable <;> simp [trustVerify, h5, hk]
    · by_cases hk : env.khAvailable <;> cases hh : env.home <;>
        simp [trustVerify, h5, hk, hh]
  refine ⟨?_, ?_, ?_, ?_, ?_⟩
  · cases hca : connectAuth p.auth env <;>
      by_cases h11 : env.setNonblockingOk <;>
        simp [sshConnect, htv p.trustHost, h1, h2, h3, h4, h11, hca]
  · cases hca : connectAuth p.auth env <;>
      by_cases h11 : env.setNonblockingOk <;>
        simp [sshConnect, htv p.trustHost, h1, h2, h3, h4, h11, hca]
  · cases hca : connectAuth p.auth env <;>
      by_cases h11 : env.setNonblockingOk <;>
        simp [sshConnect, htv p.trustHost, h1, h2, h3, h4, h11, hca]
  · intro t
    simp [sshConnect, htv t, htv p.trustHost, h1, h2, h3, h4]
  · intro host port user auth env2
    unfold openShellSplitConnect establishSshConnection
    by_cases e1 : env2.tcpOk <;> by_cases e2 : env2.sessionNewOk <;>
      by_cases e3 : env2.cloneOk <;> by_cases e4 : env2.handshakeOk <;>
        cases hea : establishAuth auth env2 <;>
          by_cases e5 : env2.setNonblockingOk <;>
            simp [e1, e2, e3, e4, e5, hea]

/-- Witness for C4: concrete environment with no host key offered. -/
theorem connect_skips_verification_witness :
    (sshConnect
        { host := "testhost", port := 22, user := "alice",
          auth := some { password := some "pw" } }
        { hostKey := none }).consultedKnownHosts = false ∧
    (sshConnect
        { host := "testhost", port := 22, user := "alice",
          auth := some { password := some "pw" } }
        { hostKey := none }).reachedAuth = true := by
  have h := connect_skips_verification
    { host := "testhost", port := 22, user := "alice",
      auth := some { password := some "pw" } }
    { hostKey := none }
    rfl rfl rfl rfl (Or.inr (Or.inr rfl))
  exact ⟨h.1, h.2.2.1⟩

/-- C8: a successful upload of N bytes — via `ssh_sftp_write` or the helper
deployment — emits exactly ceil(N/8192) progress events; the i-th event
carries the remote path, the cumulative bytes written min((i+1)·8192, N)
and the total N, and when N > 0 the final event's written field equals N. -/
theorem upload_progress_event_count (wpath : String) (env : SftpWriteEnv)
    (bytes : List Nat) (dpath : String) (denv : DeployEnv) (xr : ExecResultM)
    (h1 : env.sessionFound = true) (h2 : env.sftpOk = true)
    (h3 : env.decodeRes = Except.ok bytes) (h4 : env.createOk = true)
    (h5 : ∀ i, env.writeRes i = none)
    (d0 : (sshExec "uname -s" denv.execEnv).result = Except.ok xr)
    (d1 : denv.sessionFound = true) (d2 : denv.sftpOk = true)
    (d3 : denv.createOk = true) (d4 : ∀ i, denv.writeRes i = none) :
    (progressEvents (sshSftpWrite wpath env).trace =
      List.map
        (fun i =>
          (⟨wpath, min ((i + 1) * 8192) bytes.length, bytes.length⟩ :
            ProgressEv))
        (List.range ((bytes.length + 8191) / 8192)) ∧
     (progressEvents (sshSftpWrite wpath env).trace).length =
       (bytes.length + 8191) / 8192 ∧
     (∀ ev ∈ progressEvents (sshSftpWrite wpath env).trace,
       ev.path = wpath ∧ ev.total = bytes.length) ∧
     (0 < bytes.length →
       (progressEvents (sshSftpWrite wpath env).trace).getLast? =
         some ⟨wpath, bytes.length, bytes.length⟩)) ∧
    (progressEvents (sshDeployHelper dpath denv).trace =
      List.map
        (fun i =>
          (⟨dpath, min ((i + 1) * 8192) denv.helperLen, denv.helperLen⟩ :
            ProgressEv))
        (List.range ((denv.helperLen + 8191) / 8192)) ∧
     (progressEvents (sshDeployHelper dpath denv).trace).length =
       (denv.helperLen + 8191) / 8192 ∧
     (∀ ev ∈ progressEvents (sshDeployHelper dpath denv).trace,
       ev.path = dpath ∧ ev.total = denv.helperLen) ∧
     (0 < denv.helperLen →
       (progressEvents (sshDeployHelper dpath denv).trace).getLast? =
         some ⟨dpath, denv.helperLen, denv.helperLen⟩)) := by
  have hw := sshSftpWrite_progress wpath env bytes h1 h2 h3 h4 h5
  have hd := sshDeployHelper_progress dpath denv xr d0 d1 d2 d3 d4
  obtain ⟨hwl, hwm, hwlast⟩ := upload_map_props wpath bytes.length _ hw
  obtain ⟨hdl, hdm, hdlast⟩ := upload_map_props dpath denv.helperLen _ hd
  exact ⟨⟨hw, hwl, hwm, hwlast⟩, ⟨hd, hdl, hdm, hdlast⟩⟩

/-- Witness for C8: a 9000-byte upload in 8192-byte chunks emits exactly 2
progress events and the final event reports 9000 of 9000 bytes written. -/
theorem upload_progress_event_count_witness :
    (progressEvents
        (sshSftpWrite "/tmp/f"
          { decodeRes := Except.ok (List.replicate 9000 65) }).trace).length =
      2 ∧
    (progressEvents
        (sshSftpWrite "/tmp/f"
          { decodeRes := Except.ok (List.replicate 9000 65) }).trace).getLast? =
      some ⟨"/tmp/f", 9000, 9000⟩ := by
  have h := upload_progress_event_count "/tmp/f"
    { decodeRes := Except.ok (List.replicate 9000 65) }
    (List.replicate 9000 65) "/x" {} ⟨"", "", 0⟩
    rfl rfl rfl rfl (fun _ => rfl)
    rfl rfl rfl rfl (fun _ => rfl)
  constructor
  · have := h.1.2.1
    rwa [List.length_replicate, show (9000 + 8191) / 8192 = 2 by norm_num]
      at this
  · have := h.1.2.2.2
    rw [List.length_replicate] at this
    exact this (by norm_num)

/-- C9: `ssh_sftp_mkdirs("/a/b/c")` on a filesystem where `/a` exists as a
directory and `/a/b` does not succeeds and creates both `/a/b` and
`/a/b/c`; and a second call with the same path on the resulting filesystem
succeeds and changes nothing (idempotence, proved for every path and
starting filesystem whose first call succeeds). -/
theorem mkdirs_scenario_and_idempotent :
    ((sshSftpMkdirs {} "/a/b/c" [("/a", true)]).result = Except.ok () ∧
     fsStat (sshSftpMkdirs {} "/a/b/c" [("/a", true)]).fs "/a" = some true ∧
     fsStat (sshSftpMkdirs {} "/a/b/c" [("/a", true)]).fs "/a/b" = some true ∧
     fsStat (sshSftpMkdirs {} "/a/b/c" [("/a", true)]).fs "/a/b/c" =
       some true) ∧
    (∀ (env : MkdirsEnv) (path : String) (fs : Fs),
      (sshSftpMkdirs env path fs).result = Except.ok () →
      (sshSftpMkdirs env path (sshSftpMkdirs env path fs).fs).result =
        Except.ok () ∧
      (sshSftpMkdirs env path (sshSftpMkdirs env path fs).fs).fs =
        (sshSftpMkdirs env path fs).fs) := by
  constructor
  · exact ⟨rfl, by decide, by decide, by decide⟩
  · intro env path fs hok
    by_cases h1 : env.sessionFound
    case neg =>
      rw [show (sshSftpMkdirs env path fs).result =
        Except.error "ssh session not found" from by
          simp [sshSftpMkdirs, h1]] at hok
      exact absurd hok (by simp)
    by_cases h2 : env.sftpOk
    case neg =>
      rw [show (sshSftpMkdirs env path fs).result =
        Except.error env.sftpErr from by simp [sshSftpMkdirs, h1, h2]] at hok
      exact absurd hok (by simp)
    have hres : ∀ fs0 : Fs, (sshSftpMkdirs env path fs0).result =
        (mkdirsLoop (mkdirsSegments path) (mkdirsInit path) fs0).1 := by
      intro fs0
      simp [sshSftpMkdirs, h1, h2]
    have hfs : ∀ fs0 : Fs, (sshSftpMkdirs env path fs0).fs =
        (mkdirsLoop (mkdirsSegments path) (mkdirsInit path) fs0).2.1 := by
      intro fs0
      simp [sshSftpMkdirs, h1, h2]
    rw [hres] at hok
    obtain ⟨hi1, hi2⟩ :=
      mkdirsLoop_idem (mkdirsSegments path) (mkdirsInit path) fs hok
    simp only [hres, hfs]
    exact ⟨hi1, hi2⟩

/-- Witness for C9 (idempotence branch) at the concrete scenario: the
second `mkdirs("/a/b/c")` call succeeds and leaves the filesystem
unchanged. -/
theorem mkdirs_scenario_and_idempotent_witness :
    (sshSftpMkdirs {} "/a/b/c"
        (sshSftpMkdirs {} "/a/b/c" [("/a", true)]).fs).result =
      Except.ok () ∧
    (sshSftpMkdirs {} "/a/b/c"
        (sshSftpMkdirs {} "/a/b/c" [("/a", true)]).fs).fs =
      (sshSftpMkdirs {} "/a/b/c" [("/a", true)]).fs := by
  exact mkdirs_scenario_and_idempotent.2 {} "/a/b/c" [("/a", true)] rfl

/-- C6 (counterexample): the directory is not always interpreted as literal
data by the remote shell — the escaping handles only single quotes, and the
directory is interpolated into a double-quoted context, so a directory
containing `$(...)` reaches the inner shell as a command substitution: the
round trip does not return it as literal data. -/
theorem cwd_dollar_not_literal :
    cwdLiteralRoundTrip ("$(touch /tmp/x)".toList) = none ∧
    cwdLiteralRoundTrip ("$(touch /tmp/x)".toList) ≠
      some ("$(touch /tmp/x)".toList) := by
  exact ⟨by decide, by decide⟩

/-- C6 (amended): the single shell command built by `ssh_open_shell` first
changes to the requested directory, and the single-quote escaping makes
every directory containing none of double quote, dollar, backtick and
backslash — single quotes, spaces and semicolons included — reach the
remote shell as literal data; a directory containing one of those four
characters is instead interpreted as shell syntax by the inner
double-quoted context. -/
theorem shell_cwd_escaping_amended (dir : List Char)
    (hd : ∀ c ∈ dir, ¬ (c = dqChar ∨ c = '$' ∨ c = btChar ∨ c = bsChar)) :
    cwdLiteralRoundTrip dir = some dir := by
  unfold cwdLiteralRoundTrip
  rw [remoteShellArg_cwdCommand]
  exact innerCdLiteral_clean dir hd

/-- Witness for C6 (amended): a directory containing a single quote, spaces
and a semicolon survives the round trip literally. -/
theorem shell_cwd_escaping_amended_witness :
    cwdLiteralRoundTrip
        ("/home/it".toList ++ [sqChar] ++ "s dir; x".toList) =
      some ("/home/it".toList ++ [sqChar] ++ "s dir; x".toList) := by
  exact shell_cwd_escaping_amended
    ("/home/it".toList ++ [sqChar] ++ "s dir; x".toList) (by decide)

/-- C5 (counterexample): not all socket-level operations run under the
session's lock — `ssh_sftp_download` releases the session lock at the end
of the block that creates the SFTP handle and then performs its transfer
socket I/O (remote open and reads) without it, so its trace fails the
lock discipline. -/
theorem download_socket_io_outside_lock :
    socketOpsUnderLock
      (sshSftpDownload { steps := [DlStep.readOk 131072 none] }).trace =
      false := by
  rfl

/-- C5 (amended): `ssh_exec`, `ssh_sftp_list`, `ssh_sftp_read`,
`ssh_sftp_mkdirs`, `ssh_sftp_write` and `ssh_deploy_helper` perform all
their socket-level operations while holding the session's lock, and the
background channel reader acquires the session lock for each read attempt;
but `ssh_sftp_download` and `ssh_sftp_download_dir` release the session
lock after creating the SFTP handle and perform their transfer I/O without
it, and `ssh_home_dir` performs its SFTP I/O without ever acquiring the
session lock. -/
theorem session_lock_discipline_amended :
    (∀ cmd env, socketOpsUnderLock (sshExec cmd env).trace = true) ∧
    (∀ env, socketOpsUnderLock (sshSftpList env).trace = true) ∧
    (∀ env, socketOpsUnderLock (sshSftpRead env).trace = true) ∧
    (∀ env path fs,
      socketOpsUnderLock (sshSftpMkdirs env path fs).trace = true) ∧
    (∀ path env, socketOpsUnderLock (sshSftpWrite path env).trace = true) ∧
    (∀ path env, socketOpsUnderLock (sshDeployHelper path env).trace = true) ∧
    (∀ env, socketOpsUnderLock (readerIterTrace env) = true) ∧
    (∀ env : DownloadEnv, env.sessionFound = true → env.sftpOk = true →
      socketOpsUnderLock (sshSftpDownload env).trace = false) ∧
    (∀ env : DownloadDirEnv, env.sessionFound = true → env.sftpOk = true →
      env.localRootOk = true →
      socketOpsUnderLock (sshSftpDownloadDir env).trace = false) ∧
    (∀ env : HomeDirEnv, env.sessionFound = true →
      socketOpsUnderLock (sshHomeDir env).trace = false) := by
  refine ⟨fun cmd env => (sshExec_lock_clean cmd env).1, sshSftpList_underLock,
    sshSftpRead_underLock, sshSftpMkdirs_underLock,
    fun path env => sshSftpWrite_underLock path env,
    fun path env => sshDeployHelper_underLock path env,
    readerIter_underLock, ?_, ?_, ?_⟩
  · intro env h1 h2
    by_cases h3 : env.openOk
    case neg =>
      simp [sshSftpDownload, socketOpsUnderLock, underLockAux, h1, h2, h3]
    by_cases h4 : env.createLocalOk
    case neg =>
      simp [sshSftpDownload, socketOpsUnderLock, underLockAux, h1, h2, h3, h4]
    cases hr : dlLoop env.steps with
    | mk r t =>
      cases r <;> by_cases h5 : env.sessionStillThere <;>
        simp [sshSftpDownload, socketOpsUnderLock, underLockAux, h1, h2, h3,
          h4, h5, hr]
  · intro env h1 h2 h3
    simp [sshSftpDownloadDir, socketOpsUnderLock, underLockAux, h1, h2, h3]
  · intro env h1
    by_cases h2 : env.sftpOk
    case neg =>
      simp [sshHomeDir, socketOpsUnderLock, underLockAux, h1, h2]
    by_cases h3 : env.realpathOk <;>
      simp [sshHomeDir, socketOpsUnderLock, underLockAux, h1, h2, h3]

/-- Witness for C5 (amended) at concrete environments: a download with one
read chunk runs its transfer I/O outside the lock, while a concrete exec
run keeps everything under the lock. -/
theorem session_lock_discipline_amended_witness :
    socketOpsUnderLock
        (sshSftpDownload
          { steps := [DlStep.readOk 4096 none, DlStep.readOk 512 none] }).trace =
      false ∧
    socketOpsUnderLock
        (sshExec "echo hi" { stdoutSteps := [Except.ok "hi\n"] }).trace =
      true := by
  constructor
  · exact session_lock_discipline_amended.2.2.2.2.2.2.2.1
      { steps := [DlStep.readOk 4096 none, DlStep.readOk 512 none] } rfl rfl
  · exact session_lock_discipline_amended.1 "echo hi"
      { stdoutSteps := [Except.ok "hi\n"] }

/-- C1 (failing inputs): the claim says every operation restores the
session's pre-operation blocking mode on every path, but `ssh_sftp_write`
with undecodable base64 data and `ssh_sftp_download` with a failing remote
open both return their error with the session still in blocking mode
(`true`), although it was non-blocking (`false`) before the call. -/
theorem blocking_mode_not_restored_on_error :
    (sshSftpWrite "/tmp/f"
        { decodeRes := Except.error "Invalid symbol 37, offset 0." }).result =
      Except.error "Invalid symbol 37, offset 0." ∧
    blockingAfter false
        (sshSftpWrite "/tmp/f"
          { decodeRes := Except.error "Invalid symbol 37, offset 0." }).trace =
      true ∧
    (sshSftpDownload { openOk := false, openErr := "no such file" }).result =
      Except.error "no such file" ∧
    blockingAfter false
        (sshSftpDownload { openOk := false, openErr := "no such file" }).trace =
      true := by
  exact ⟨rfl, rfl, rfl, rfl⟩

/-- C10 (counterexample): closing a forward whose backend is a spawned
process does not kill and wait on the process before the entry is removed —
the removal (`forwards.remove`) is the very first event of the trace, before
the kill. -/
theorem close_forward_removes_before_kill :
    killedBeforeRemoval
        (sshCloseForward "fwd_1" (some (FwdBackend.sshProcess true))) = false ∧
    fwdRemoveIdx (sshCloseForward "fwd_1" (some (FwdBackend.sshProcess true))) =
      some 0 ∧
    fwdKillIdx (sshCloseForward "fwd_1" (some (FwdBackend.sshProcess true))) =
      some 1 := by
  exact ⟨rfl, rfl, rfl⟩

/-- C10 (amended): closing a registered forward first removes the entry,
then — for a process backend — kills and waits on the process, or — for a
thread backend — sets the shared shutdown flag and joins the thread, and
finally emits a status event with status "closed" tagged with the forward
identifier. -/
theorem close_forward_teardown (fid : String) :
    sshCloseForward fid (some (FwdBackend.sshProcess true)) =
      [FwdEv.removeEntry fid, FwdEv.killProc, FwdEv.waitProc,
       FwdEv.emitState fid "closed"] ∧
    sshCloseForward fid (some (FwdBackend.localThread true)) =
      [FwdEv.removeEntry fid, FwdEv.setShutdownFlag, FwdEv.joinThread,
       FwdEv.emitState fid "closed"] := by
  exact ⟨rfl, rfl⟩

end JaTerm
